import Mathlib

/-!
Verification development for the `blender-dataset-gen` repository.

The repository renders 3D models inside a cube enclosure from five fixed
camera views (`main.py`, `src/scene_setup.py`, `src/model_handler.py`,
`src/output.py`) and post-filters the rendered dataset by mean grayscale
brightness of the top-down view (`postprocess.py`).

This file gives a shallow embedding of those components:

* Python floats are idealized as `ℚ` (all example values of the spec are
  exact decimals); `math.pi` is embedded as the exact rational value of the
  IEEE-754 double that Python uses.
* The process-global Mersenne-Twister of Python's `random` module is
  embedded as an abstract deterministic generator `PRNG`: an `Int` state, a
  re-seeding function (`random.seed`) and a step function (`random.random`);
  `random.uniform lo hi = lo + (hi - lo) * random()` exactly as in CPython.
  The state is threaded explicitly through every function in source order
  of the draws.
* An image is embedded as its file name plus its grayscale pixel values
  (PIL's decoding is external); the output tree on disk is embedded as a
  two-level directory tree with image files at the leaves, which is the
  exact shape `main.py` writes (`OUTPUT/<view>/<category>/<file>.png`) and
  the shape `postprocess.py` traverses.  File names inside one directory
  are unique on a real file system; theorems that need this carry `Nodup`
  hypotheses.
* The physics settling run of `randomize_model_pose` is an external,
  deterministic capability (spec §4.2) and is embedded as an explicit
  function parameter `physics` receiving the object, the airborne pose and
  the fixed frame count.
-/

namespace BDG

/-! ## Python string primitives (ASCII case folding and suffix test) -/

/-- Embedding of Python `str.lower()` for the ASCII names used here. -/
def pyLower (s : String) : String := ⟨s.data.map Char.toLower⟩

/-- Embedding of Python `str.endswith(suffix)`. -/
def pyEndsWith (s suffix : String) : Bool := suffix.data.isSuffixOf s.data

/-! ## Data model of the on-disk output tree

`main.py` writes `os.path.join(OUTPUT_PATH, view, category, output_file)`;
`postprocess.py` walks an output folder of the same two-directories-deep
shape.  `Dir2` is an innermost directory holding image files, `Dir1` a
top-level directory holding such directories, and an output tree is the
list of top-level directories.  `os.walk` also visits the output root and
each `Dir1`, but in this shape neither contains files directly, so only
`Dir2` levels can contribute `.png` files. -/

/-- One image file: its name and its grayscale pixel values. -/
structure ImgFile where
  name : String
  pixels : List ℚ
deriving DecidableEq

/-- An innermost directory (e.g. `OUTPUT/<view>/<category>/` as written by
`main.py`, or `OUTPUT/<category>/<view>/` as read by `postprocess.py`). -/
structure Dir2 where
  name : String
  files : List ImgFile
deriving DecidableEq

/-- A top-level directory of the output tree. -/
structure Dir1 where
  name : String
  subdirs : List Dir2
deriving DecidableEq

/-- The output tree: the list of top-level directories of the output
folder. -/
abbrev OutputTree := List Dir1

/-- Result of a filter run: the tree left on disk and the two counters
that `process_top_view_renders_with_sync` returns. -/
structure FilterResult where
  tree : OutputTree
  deleted : Nat
  kept : Nat
deriving DecidableEq

/-! ## Brightness statistics and thresholds (`postprocess.py`) -/

/-- Mean grayscale brightness `sum(pixels) / len(pixels)` as computed for
every image by `postprocess.py`. -/
def avgBrightness (pixels : List ℚ) : ℚ := pixels.sum / (pixels.length : ℚ)

/-- Embedding of `compute_thresholds_from_references` (postprocess.py lines 15-53): the
mean brightness of the empty reference minus the margin is the upper
threshold, the mean brightness of the object reference plus the margin is
the lower threshold.  The two reference images are given by their decoded
pixel values. -/
def compute_thresholds_from_references
    (emptyRefPixels objectRefPixels : List ℚ) (margin : ℚ) : ℚ × ℚ :=
  let maxAvg := avgBrightness emptyRefPixels
  let minAvg := avgBrightness objectRefPixels
  (maxAvg - margin, minAvg + margin)

/-- Embedding of `too_bright = avg > max_threshold` (postprocess.py line 130). -/
def too_bright (maxThreshold avg : ℚ) : Bool := decide (maxThreshold < avg)

/-- Embedding of `too_dark = min_threshold is not None and avg < min_threshold`
(postprocess.py line 131). -/
def too_dark (minThreshold : Option ℚ) (avg : ℚ) : Bool :=
  match minThreshold with
  | none => false
  | some m => decide (avg < m)

/-- The `file.lower().endswith(".png")` test of the filter's traversal. -/
def isPng (name : String) : Bool := pyEndsWith (pyLower name) ".png"

/-! ## Deletion primitives of the filter

`os.remove` resolves a path by name; inside one directory of a real file
system that name is unique, and the update functions below rewrite the
first directory entry carrying the looked-up name, which is exactly the
directory the path denotes. -/

/-- Remove the file called `fname` from a directory (`os.remove`). -/
def removeFileByName (d : Dir2) (fname : String) : Dir2 :=
  ⟨d.name, d.files.filter (fun f => f.name ≠ fname)⟩

/-- Apply `g` to the first inner directory named `n`. -/
def updateDir2s : List Dir2 → String → (Dir2 → Dir2) → List Dir2
  | [], _, _ => []
  | d :: rest, n, g =>
    if d.name = n then g d :: rest else d :: updateDir2s rest n g

/-- Apply `g` to the first top-level directory named `n`. -/
def updateDir1s : OutputTree → String → (Dir1 → Dir1) → OutputTree
  | [], _, _ => []
  | d :: rest, n, g =>
    if d.name = n then g d :: rest else d :: updateDir1s rest n g

/-- Embedding of `os.remove(top_img_path)` (postprocess.py line 139): the reference-view
image itself, at `output_folder/<category>/<topName>/<fname>`. -/
def removeTopFile (tree : OutputTree) (category topName fname : String) :
    OutputTree :=
  updateDir1s tree category
    (fun d1 => ⟨d1.name, updateDir2s d1.subdirs topName
      (fun d2 => removeFileByName d2 fname)⟩)

/-- The sibling-deletion loop (postprocess.py lines 142-149): inside
`output_folder/<category>`, delete `fname` from every subdirectory whose
lowered name is not `"top"`. -/
def removeInSiblingViews (tree : OutputTree) (category fname : String) :
    OutputTree :=
  updateDir1s tree category
    (fun d1 => ⟨d1.name, d1.subdirs.map
      (fun v => if pyLower v.name ≠ "top" then removeFileByName v fname else v)⟩)

/-! ## The filter traversal (`process_top_view_renders_with_sync`) -/

/-- Processing of one file of a reference-view directory (postprocess.py
lines 122-152): non-`.png` files are skipped; otherwise the mean
brightness is classified, a rejected image is deleted together with its
same-named siblings (unless `debug_mode` is set) and counted as deleted,
an accepted image is counted as kept. -/
def processFileStep (debugMode : Bool) (maxThreshold : ℚ)
    (minThreshold : Option ℚ) (category topName : String)
    (acc : FilterResult) (f : ImgFile) : FilterResult :=
  if isPng f.name then
    let avg := avgBrightness f.pixels
    if too_bright maxThreshold avg || too_dark minThreshold avg then
      if debugMode then ⟨acc.tree, acc.deleted + 1, acc.kept⟩
      else
        ⟨removeInSiblingViews
            (removeTopFile acc.tree category topName f.name) category f.name,
          acc.deleted + 1, acc.kept⟩
    else ⟨acc.tree, acc.deleted, acc.kept + 1⟩
  else acc

/-- One directory of the walk: only directories whose lowered base name is
exactly `"top"` are processed (postprocess.py line 117); `category` is the
base name of the parent directory (line 118). -/
def processDir2 (debugMode : Bool) (maxThreshold : ℚ)
    (minThreshold : Option ℚ) (category : String)
    (acc : FilterResult) (d2 : Dir2) : FilterResult :=
  if pyLower d2.name = "top" then
    d2.files.foldl
      (processFileStep debugMode maxThreshold minThreshold category d2.name) acc
  else acc

/-- The walk through one top-level directory and its subdirectories. -/
def processDir1 (debugMode : Bool) (maxThreshold : ℚ)
    (minThreshold : Option ℚ) (acc : FilterResult) (d1 : Dir1) :
    FilterResult :=
  d1.subdirs.foldl
    (fun a d2 => processDir2 debugMode maxThreshold minThreshold d1.name a d2)
    acc

/-- Embedding of `process_top_view_renders_with_sync(output_folder, max_threshold,
min_threshold, debug_mode)` (postprocess.py lines 103-158): walk the
output tree, classify every `.png` directly inside a directory whose
lowered name is `"top"`, and on rejection delete it and its same-named
siblings.  Deletions only ever remove files, never directories, and never
touch a reference-view directory other than the one being processed, so
walking the directory structure captured at entry is faithful to
`os.walk`. -/
def process_top_view_renders_with_sync (outputFolder : OutputTree)
    (maxThreshold : ℚ) (minThreshold : Option ℚ) (debugMode : Bool) :
    FilterResult :=
  outputFolder.foldl (processDir1 debugMode maxThreshold minThreshold)
    ⟨outputFolder, 0, 0⟩

/-- All file names below the top-level directories called `c`
(`output_folder/<c>/<any view>/`). -/
def filesUnder (tree : OutputTree) (c : String) : List String :=
  (tree.filter (fun d1 => d1.name = c)).flatMap
    (fun d1 => d1.subdirs.flatMap (fun v => v.files.map (fun f => f.name)))

/-! ## Configuration constants (`config.py`), as exact rationals -/

def BOX_SIZE : ℚ := 7/10

def CAMERAS_POINT_LOOK_AT : ℚ × ℚ × ℚ := (0, 0, -BOX_SIZE / 3)

def VARIATIONS_PER_MODEL : Nat := 1

def CAMERA_FOCAL_RANGE : ℚ × ℚ := (4, 41/10)

def LOOK_AT_OFFSET : ℚ × ℚ := (-1/1000, 1/1000)

def CAMERA_POSITION_JITTER : ℚ × ℚ := (0, 0)

def CAMERA_DISTANCE_FACTOR : ℚ := 7/10

def CAMERA_CORNER_COORD : ℚ := BOX_SIZE / 2 * CAMERA_DISTANCE_FACTOR

/-- The five named base camera positions of `config.py`, in dict order. -/
def CAMERA_BASE_POSITIONS : List (String × (ℚ × ℚ × ℚ)) :=
  [("front_left", (CAMERA_CORNER_COORD, CAMERA_CORNER_COORD, CAMERA_CORNER_COORD)),
   ("front_right", (-CAMERA_CORNER_COORD, CAMERA_CORNER_COORD, CAMERA_CORNER_COORD)),
   ("back_left", (CAMERA_CORNER_COORD, -CAMERA_CORNER_COORD, CAMERA_CORNER_COORD)),
   ("back_right", (-CAMERA_CORNER_COORD, -CAMERA_CORNER_COORD, CAMERA_CORNER_COORD)),
   ("top", (0, 0, CAMERA_CORNER_COORD))]

def BOX_HUE_VARIATION : ℚ × ℚ := (-1/10, 1/10)

def BOX_SATURATION_VARIATION : ℚ × ℚ := (0, 1/5)

def BOX_VALUE_VARIATION : ℚ × ℚ := (-1/100, 0)

def BOX_ROUGHNESS_RANGE : ℚ × ℚ := (1/2, 19/20)

def BOX_SPECULAR_RANGE : ℚ × ℚ := (0, 1/2)

def BOX_METALLIC_RANGE : ℚ × ℚ := (0, 2/5)

def LIGHT_ENERGY_RANGE : ℚ × ℚ := (20, 21)

def LIGHT_COLOR_VARIATION : ℚ × ℚ := (-1/10, 1/10)

def RESIZE_AND_FIT_OBJECT : Bool := true

/-- Embedding of `MAX_OBJECT_DIMENSION = 0.7 * BOX_SIZE` (defined identically in
`config.py` and again at the top of `src/model_handler.py`). -/
def MAX_OBJECT_DIMENSION : ℚ := 7/10 * BOX_SIZE

/-- Embedding of `MIN_OBJECT_DIMENSION = 0.3 * BOX_SIZE`. -/
def MIN_OBJECT_DIMENSION : ℚ := 3/10 * BOX_SIZE

/-- The exact rational value of the IEEE-754 double `math.pi`. -/
def mathPi : ℚ := 884279719003555 / 281474976710656

/-- Embedding of `math.degrees` on the idealized rationals. -/
def degreesQ (x : ℚ) : ℚ := x * 180 / mathPi

/-! ## The process-global pseudo-random generator

Python's `random` module holds one global deterministic generator.  It is
embedded abstractly: `state` values are `Int`, `seedFn` is `random.seed`
and `nextFn` is one draw of `random.random` returning the drawn value and
the successor state.  All pipeline functions thread the state in the exact
order of the `random.uniform` calls of the source. -/

structure PRNG where
  seedFn : Int → Int
  nextFn : Int → ℚ × Int

/-- CPython's `random.uniform(a, b) = a + (b - a) * random()`. -/
def uniform (p : PRNG) (lo hi : ℚ) (s : Int) : ℚ × Int :=
  let r := p.nextFn s
  (lo + (hi - lo) * r.1, r.2)

/-! ## Enclosure Builder (`create_box`, scene_setup.py lines 65-119) -/

/-- Python `int()` truncation toward zero on the idealized rationals. -/
def pyInt (q : ℚ) : Int := if 0 ≤ q then ⌊q⌋ else ⌈q⌉

/-- CPython `colorsys.hsv_to_rgb`, called by `create_box` to turn the
randomized HSV triple into the base color. -/
def hsv_to_rgb (h s v : ℚ) : ℚ × ℚ × ℚ :=
  if s = 0 then (v, v, v)
  else
    let i0 : Int := pyInt (h * 6)
    let f : ℚ := h * 6 - (i0 : ℚ)
    let p : ℚ := v * (1 - s)
    let q : ℚ := v * (1 - s * f)
    let t : ℚ := v * (1 - s * (1 - f))
    let i : Int := i0 % 6
    if i = 0 then (v, t, p)
    else if i = 1 then (q, v, p)
    else if i = 2 then (p, v, t)
    else if i = 3 then (p, q, v)
    else if i = 4 then (t, p, v)
    else (v, p, q)

/-- The randomized interior material of the display box. -/
structure BoxMat where
  hue : ℚ
  saturation : ℚ
  value : ℚ
  baseColor : ℚ × ℚ × ℚ
  roughness : ℚ
  specular : ℚ
  metallic : ℚ
deriving DecidableEq

/-- Embedding of `create_box` (scene_setup.py): starting from white
`(base_h, base_s, base_v) = (0, 0, 1)`, hue becomes
`(base_h + uniform(*BOX_HUE_VARIATION)) % 1.0`, saturation and value are
clamped with `min(max(..., 0.0), 1.0)`, the HSV triple is converted to RGB
for the base color, and roughness/specular/metallic are drawn from their
ranges.  Box geometry and rigid-body setup carry no randomness and are not
modeled. -/
def create_box (p : PRNG) (st : Int) : BoxMat × Int :=
  let u1 := uniform p BOX_HUE_VARIATION.1 BOX_HUE_VARIATION.2 st
  let newH := Int.fract ((0 : ℚ) + u1.1)
  let u2 := uniform p BOX_SATURATION_VARIATION.1 BOX_SATURATION_VARIATION.2 u1.2
  let newS := min (max ((0 : ℚ) + u2.1) 0) 1
  let u3 := uniform p BOX_VALUE_VARIATION.1 BOX_VALUE_VARIATION.2 u2.2
  let newV := min (max ((1 : ℚ) + u3.1) 0) 1
  let rgb := hsv_to_rgb newH newS newV
  let u4 := uniform p BOX_ROUGHNESS_RANGE.1 BOX_ROUGHNESS_RANGE.2 u3.2
  let u5 := uniform p BOX_SPECULAR_RANGE.1 BOX_SPECULAR_RANGE.2 u4.2
  let u6 := uniform p BOX_METALLIC_RANGE.1 BOX_METALLIC_RANGE.2 u5.2
  (⟨newH, newS, newV, rgb, u4.1, u5.1, u6.1⟩, u6.2)

/-! ## Illumination Randomizer (`setup_lighting`, scene_setup.py) -/

/-- The shared parameters of the four LED bar lights. -/
structure LightParams where
  energy : ℚ
  color : ℚ × ℚ × ℚ
deriving DecidableEq

/-- Embedding of `setup_lighting`: one energy draw divided by the four lights, then one
offset draw per color channel added to the white base and clamped to
`[0, 1]`.  All four area lights share these values; their fixed positions
and shapes carry no randomness and are not modeled. -/
def setup_lighting (p : PRNG) (st : Int) : LightParams × Int :=
  let ue := uniform p LIGHT_ENERGY_RANGE.1 LIGHT_ENERGY_RANGE.2 st
  let energy := ue.1 / 4
  let u1 := uniform p LIGHT_COLOR_VARIATION.1 LIGHT_COLOR_VARIATION.2 ue.2
  let u2 := uniform p LIGHT_COLOR_VARIATION.1 LIGHT_COLOR_VARIATION.2 u1.2
  let u3 := uniform p LIGHT_COLOR_VARIATION.1 LIGHT_COLOR_VARIATION.2 u2.2
  let color := (min (max ((1 : ℚ) + u1.1) 0) 1,
    min (max ((1 : ℚ) + u2.1) 0) 1, min (max ((1 : ℚ) + u3.1) 0) 1)
  (⟨energy, color⟩, u3.2)

/-! ## Camera Rig Generator (`setup_cameras`, scene_setup.py) -/

/-- Embedding of `clamp` (scene_setup.py line 122): `max(min_val, min(val, max_val))`. -/
def clamp (val minVal maxVal : ℚ) : ℚ := max minVal (min val maxVal)

/-- One generated camera: randomized focal length, jittered clamped
position and jittered look-at target (the `TRACK_TO` constraint derives
the orientation from the target and is not a separate datum). -/
structure Camera where
  name : String
  lens : ℚ
  location : ℚ × ℚ × ℚ
  target : ℚ × ℚ × ℚ
deriving DecidableEq

/-- One iteration of the camera loop of `setup_cameras`: draw the focal
length, add one jitter draw per coordinate to the base position and clamp
each coordinate into `[-BOX_SIZE/2, BOX_SIZE/2]`, then draw the three
look-at offsets.  The fixed sensor dimensions carry no randomness. -/
def camera_step (p : PRNG) (nameBase : String × (ℚ × ℚ × ℚ)) (st : Int) :
    Camera × Int :=
  let boxHalf := BOX_SIZE / 2
  let base := nameBase.2
  let uf := uniform p CAMERA_FOCAL_RANGE.1 CAMERA_FOCAL_RANGE.2 st
  let j1 := uniform p CAMERA_POSITION_JITTER.1 CAMERA_POSITION_JITTER.2 uf.2
  let j2 := uniform p CAMERA_POSITION_JITTER.1 CAMERA_POSITION_JITTER.2 j1.2
  let j3 := uniform p CAMERA_POSITION_JITTER.1 CAMERA_POSITION_JITTER.2 j2.2
  let newPosition := (clamp (base.1 + j1.1) (-boxHalf) boxHalf,
    clamp (base.2.1 + j2.1) (-boxHalf) boxHalf,
    clamp (base.2.2 + j3.1) (-boxHalf) boxHalf)
  let o1 := uniform p LOOK_AT_OFFSET.1 LOOK_AT_OFFSET.2 j3.2
  let o2 := uniform p LOOK_AT_OFFSET.1 LOOK_AT_OFFSET.2 o1.2
  let o3 := uniform p LOOK_AT_OFFSET.1 LOOK_AT_OFFSET.2 o2.2
  let target := (CAMERAS_POINT_LOOK_AT.1 + o1.1,
    CAMERAS_POINT_LOOK_AT.2.1 + o2.1, CAMERAS_POINT_LOOK_AT.2.2 + o3.1)
  (⟨nameBase.1, uf.1, newPosition, target⟩, o3.2)

/-- The camera loop over a list of named base positions. -/
def cameras_from_bases (p : PRNG) :
    List (String × (ℚ × ℚ × ℚ)) → Int → List Camera × Int
  | [], st => ([], st)
  | nb :: rest, st =>
    let c := camera_step p nb st
    let cs := cameras_from_bases p rest c.2
    (c.1 :: cs.1, cs.2)

/-- Embedding of `setup_cameras` (scene_setup.py lines 125-178): one camera per entry
of `CAMERA_BASE_POSITIONS`, in dict order. -/
def setup_cameras (p : PRNG) (st : Int) : List Camera × Int :=
  cameras_from_bases p CAMERA_BASE_POSITIONS st

/-! ## Geometry Normalizer (`load_model`, model_handler.py lines 24-96)

After `origin_set(type='GEOMETRY_ORIGIN', center='BOUNDS')` and
`location = (0,0,0)` the object's local bounding box is centered at the
origin, and after `transform_apply(scale=True)` the scale is baked into
the mesh; a normalized object is therefore captured by its bounding-box
half extents together with its world location. -/

/-- The axis-aligned bounding box of the imported (possibly joined) mesh,
as Blender reports it before normalization. -/
structure RawMesh where
  lo : ℚ × ℚ × ℚ
  hi : ℚ × ℚ × ℚ
deriving DecidableEq

/-- A Blender bounding box is geometrically sane: `lo ≤ hi` per axis. -/
def rawWellFormed (r : RawMesh) : Bool :=
  decide (r.lo.1 ≤ r.hi.1) && decide (r.lo.2.1 ≤ r.hi.2.1) &&
    decide (r.lo.2.2 ≤ r.hi.2.2)

/-- A mesh object after normalization: bounding-box half extents (the
local bounding box is `[-h, h]` per axis) and the world location. -/
structure MeshObj where
  halfExtents : ℚ × ℚ × ℚ
  location : ℚ × ℚ × ℚ
deriving DecidableEq

/-- Embedding of `obj.bound_box`: the eight corners of the local bounding box. -/
def boundBox (o : MeshObj) : List (ℚ × ℚ × ℚ) :=
  [(-o.halfExtents.1, -o.halfExtents.2.1, -o.halfExtents.2.2),
   (-o.halfExtents.1, -o.halfExtents.2.1, o.halfExtents.2.2),
   (-o.halfExtents.1, o.halfExtents.2.1, -o.halfExtents.2.2),
   (-o.halfExtents.1, o.halfExtents.2.1, o.halfExtents.2.2),
   (o.halfExtents.1, -o.halfExtents.2.1, -o.halfExtents.2.2),
   (o.halfExtents.1, -o.halfExtents.2.1, o.halfExtents.2.2),
   (o.halfExtents.1, o.halfExtents.2.1, -o.halfExtents.2.2),
   (o.halfExtents.1, o.halfExtents.2.1, o.halfExtents.2.2)]

/-- Embedding of `is_object_inside_box(obj, box_size, tol=0.05)` (model_handler.py
lines 10-22): every corner of `obj.bound_box`, transformed to world space
(the object's transform is a pure translation after normalization), must
lie within `[-box_size/2 - tol, box_size/2 + tol]` on every axis. -/
def is_object_inside_box (obj : MeshObj) (boxSize : ℚ) (tol : ℚ) : Bool :=
  let half := boxSize / 2
  (boundBox obj).all (fun v =>
    let w := (obj.location.1 + v.1, obj.location.2.1 + v.2.1,
      obj.location.2.2 + v.2.2)
    decide (-half - tol ≤ w.1 ∧ w.1 ≤ half + tol) &&
      decide (-half - tol ≤ w.2.1 ∧ w.2.1 ≤ half + tol) &&
      decide (-half - tol ≤ w.2.2 ∧ w.2.2 ≤ half + tol))

/-- Embedding of `load_model(model_path)` (model_handler.py lines 24-96).  `raw = none`
models an import yielding no mesh objects (the function returns `None`
before any draw).  Otherwise the mesh is centered at the origin; if its
largest dimension is positive, a target dimension is drawn uniformly from
`[MIN_OBJECT_DIMENSION, MAX_OBJECT_DIMENSION]`, the mesh is scaled by
`target / max_dim` and the scale is applied, and the fit check
`is_object_inside_box(obj, BOX_SIZE)` decides between returning the
object and returning `None`. -/
def load_model (p : PRNG) (raw : Option RawMesh) (st : Int) :
    Option MeshObj × Int :=
  match raw with
  | none => (none, st)
  | some r =>
    let ext : ℚ × ℚ × ℚ :=
      (r.hi.1 - r.lo.1, r.hi.2.1 - r.lo.2.1, r.hi.2.2 - r.lo.2.2)
    let maxDim := max ext.1 (max ext.2.1 ext.2.2)
    if 0 < maxDim then
      let ut := uniform p MIN_OBJECT_DIMENSION MAX_OBJECT_DIMENSION st
      let scaleFactor := ut.1 / maxDim
      let obj : MeshObj := ⟨(ext.1 * scaleFactor / 2, ext.2.1 * scaleFactor / 2,
        ext.2.2 * scaleFactor / 2), (0, 0, 0)⟩
      if is_object_inside_box obj BOX_SIZE (1/20) then (some obj, ut.2)
      else (none, ut.2)
    else (some ⟨(ext.1 / 2, ext.2.1 / 2, ext.2.2 / 2), (0, 0, 0)⟩, st)

/-! ## Pose Synthesizer (`randomize_model_pose`, model_handler.py) -/

/-- A pose: world position and Euler rotation (radians). -/
structure Pose where
  position : ℚ × ℚ × ℚ
  rotation : ℚ × ℚ × ℚ
deriving DecidableEq

/-- Embedding of `randomize_model_pose(model_object, variation_index,
simulation_frames=60)` (model_handler.py lines 98-211): re-seed the global
generator with `variation_index + hash(model_object.name) % 1000`
(`hashName` is the process-salted Python hash of the object's name), draw
the x/y offsets and the three rotation angles, place the object airborne,
run the fixed-length physics settling (the external deterministic stepper
`physics`), and return the final rotation (converted to degrees) and the
final position. -/
def randomize_model_pose (p : PRNG)
    (physics : MeshObj → Pose → Nat → Pose) (obj : MeshObj) (hashName : Int)
    (variationIndex : Nat) (simulationFrames : Nat) (st : Int) :
    ((ℚ × ℚ × ℚ) × (ℚ × ℚ × ℚ)) × Int :=
  let s0 := p.seedFn ((variationIndex : Int) + hashName % 1000)
  let maxOffset := BOX_SIZE / 2 * (2/10)
  let ux := uniform p (-maxOffset) maxOffset s0
  let uy := uniform p (-maxOffset) maxOffset ux.2
  let posZ := (BOX_SIZE / 2 - MAX_OBJECT_DIMENSION / 2) * (9/10)
  let ur1 := uniform p 0 (2 * mathPi) uy.2
  let ur2 := uniform p 0 (2 * mathPi) ur1.2
  let ur3 := uniform p 0 (2 * mathPi) ur2.2
  let final := physics obj ⟨(ux.1, uy.1, posZ), (ur1.1, ur2.1, ur3.1)⟩
    simulationFrames
  (((degreesQ final.rotation.1, degreesQ final.rotation.2.1,
      degreesQ final.rotation.2.2), final.position), ur3.2)

/-! ## Render Orchestrator (`render_model`, main.py lines 20-66) -/

/-- Everything one loop iteration of `render_model` computes for a
successfully loaded variation. -/
structure VariationRecord where
  variation : Nat
  obj : MeshObj
  boxMat : BoxMat
  lights : LightParams
  cameras : List Camera
  pose : (ℚ × ℚ × ℚ) × (ℚ × ℚ × ℚ)
deriving DecidableEq

/-- The body of `render_model`'s variation loop: `clear_scene()` (whose
only randomized work is `create_box`), `setup_lighting()`,
`load_model(...)` — on `None` the whole call returns `False` — then
`setup_cameras()` and `randomize_model_pose(model, variation_index)`. -/
def renderVariation (p : PRNG) (physics : MeshObj → Pose → Nat → Pose)
    (raw : Option RawMesh) (hashName : Int) (variation : Nat) (st : Int) :
    Option VariationRecord × Int :=
  let b := create_box p st
  let l := setup_lighting p b.2
  let m := load_model p raw l.2
  match m.1 with
  | none => (none, m.2)
  | some obj =>
    let cams := setup_cameras p m.2
    let pose := randomize_model_pose p physics obj hashName variation 60 cams.2
    (some ⟨variation, obj, b.1, l.1, cams.1, pose.1⟩, pose.2)

/-- The `for variation in range(VARIATIONS_PER_MODEL)` loop, recursing on
the number of remaining variations with the current variation index:
a `None` from `load_model` makes `render_model` return `False`
immediately, abandoning the remaining variations. -/
def render_loop (p : PRNG) (physics : MeshObj → Pose → Nat → Pose)
    (raw : Option RawMesh) (hashName : Int) :
    Nat → Nat → Int → Bool × List VariationRecord × Int
  | _, 0, st => (true, [], st)
  | idx, remaining + 1, st =>
    match renderVariation p physics raw hashName idx st with
    | (none, st') => (false, [], st')
    | (some rec1, st') =>
      let rest := render_loop p physics raw hashName (idx + 1) remaining st'
      (rest.1, rec1 :: rest.2.1, rest.2.2)

/-- Embedding of `render_model(model_info)`: run the variation loop from variation 0.
The same model file is loaded in every iteration (`raw` is the import
result for `model_info["model_path"]`); `variationsPerModel` is the
configured `VARIATIONS_PER_MODEL`. -/
def render_model (p : PRNG) (physics : MeshObj → Pose → Nat → Pose)
    (raw : Option RawMesh) (hashName : Int) (variationsPerModel : Nat)
    (st : Int) : Bool × List VariationRecord × Int :=
  render_loop p physics raw hashName 0 variationsPerModel st

/-- The output file name `f"{model_name}_v{variation+1}.png"` of
`render_model` (main.py line 58). -/
def output_file (modelName : String) (variation : Nat) : String :=
  modelName ++ "_v" ++ toString (variation + 1) ++ ".png"

/-- The view names, in the order of `CAMERA_BASE_POSITIONS`. -/
def viewNames : List String := CAMERA_BASE_POSITIONS.map (fun nb => nb.1)

/-- The output tree written by `render_model` over a run (main.py lines
52-61): one top-level directory per view, holding one directory per
category, holding `<model>_v<variation+1>.png` for every model of the
category and every variation — the view-major layout
`OUTPUT/<view>/<category>/<file>`.  `pixelsOf` gives the rendered pixel
content for (category, model, variation). -/
def renderedTree (categories : List String) (modelsOf : String → List String)
    (variationsPerModel : Nat)
    (pixelsOf : String → String → Nat → List ℚ) : OutputTree :=
  viewNames.map (fun view =>
    ⟨view, categories.map (fun cat =>
      ⟨cat, (modelsOf cat).flatMap (fun m =>
        (List.range variationsPerModel).map (fun k =>
          ⟨output_file m k, pixelsOf cat m k⟩))⟩)⟩)

/-! ## Module imports (`main.py`, `src/output.py`, `config.py`)

`from X import a, b, c` raises `ImportError` at the first listed name the
module `X` does not define; loading `src.output` executes its top-level
`from config import INPUT_PATH, OUTPUT_PATH, CAMERA_POSITIONS` before any
of its functions can be called. -/

/-- The module-level names `config.py` defines. -/
def configModuleNames : List String :=
  ["INPUT_PATH", "OUTPUT_PATH", "BOX_SIZE", "CAMERAS_POINT_LOOK_AT",
   "VARIATIONS_PER_MODEL", "AVAILABLE_RENDER_ENGINES",
   "SELECTED_RENDER_ENGINE", "CAMERA_FOCAL_RANGE", "LOOK_AT_OFFSET",
   "CAMERA_POSITION_JITTER", "CAMERA_DISTANCE_FACTOR",
   "CAMERA_CORNER_COORD", "CAMERA_BASE_POSITIONS", "BOX_HUE_VARIATION",
   "BOX_SATURATION_VARIATION", "BOX_VALUE_VARIATION",
   "BOX_ROUGHNESS_RANGE", "BOX_SPECULAR_RANGE", "BOX_METALLIC_RANGE",
   "LIGHT_ENERGY_RANGE", "LIGHT_COLOR_VARIATION", "RESIZE_AND_FIT_OBJECT",
   "MAX_OBJECT_DIMENSION", "MIN_OBJECT_DIMENSION", "RESOLUTION_X",
   "RESOLUTION_Y"]

/-- Embedding of `from config import <names>`: `ImportError` naming the first name not
defined by `config.py`, success otherwise. -/
def fromConfigImport (names : List String) : Except String Unit :=
  match names.find? (fun n => !(configModuleNames.contains n)) with
  | some n => Except.error n
  | none => Except.ok ()

/-- The `from config import ...` at the top of `src/output.py` (line 5). -/
def outputModuleLoad : Except String Unit :=
  fromConfigImport ["INPUT_PATH", "OUTPUT_PATH", "CAMERA_POSITIONS"]

/-- What a successful `main()` start-up would have produced before any
model is rendered: the category list and the created
`OUTPUT/<view>/<category>` directories. -/
structure MainSetup where
  categories : List String
  foldersCreated : List (String × String)
deriving DecidableEq

/-- Embedding of `create_output_folders()` of `src/output.py`, as it would behave if
its module loaded: one directory per (view, category). -/
def create_output_folders (inputCategories : List String) :
    List (String × String) :=
  viewNames.flatMap (fun v => inputCategories.map (fun c => (v, c)))

/-- The start-up path of `main.py`: its own `from config import
OUTPUT_PATH, VARIATIONS_PER_MODEL` (line 15), then loading `src.output`
(line 16) — which must succeed before `create_output_folders`,
`record_config` or `find_models` can run at all. -/
def mainSetup (inputCategories : List String) : Except String MainSetup := do
  fromConfigImport ["OUTPUT_PATH", "VARIATIONS_PER_MODEL"]
  outputModuleLoad
  Except.ok ⟨inputCategories, create_output_folders inputCategories⟩

/-! ## Concrete instances used by counterexamples and witnesses -/

/-- Physics stepper instance: the object rests where it was released (a
valid deterministic stepper for the abstract capability). -/
def exPhys : MeshObj → Pose → Nat → Pose := fun _ pose _ => pose

/-- A concrete deterministic generator: draws alternate between `0` and
`1/2` depending on the parity of the state. -/
def exP : PRNG := ⟨fun n => n, fun s => (if s % 2 = 0 then 0 else 1/2, s + 1)⟩

/-- A generator whose sixteenth draw (state 15) is large; all its draws
are legitimate parameter values for the abstract generator interface. -/
def exP3 : PRNG := ⟨fun n => n, fun s => (if s = 15 then 10 else 0, s + 1)⟩

/-- A generator drawing constantly `1/4`. -/
def exP9 : PRNG := ⟨fun n => n, fun s => (1/4, s + 1)⟩

/-- A cube-shaped imported mesh with bounding box `[-1, 1]³`. -/
def cubeRaw : RawMesh := ⟨(-1, -1, -1), (1, 1, 1)⟩

/-- A degenerate imported mesh whose bounding box is a point. -/
def rawZero : RawMesh := ⟨(0, 0, 0), (0, 0, 0)⟩

/-! ## Relations used to reason about filter runs

A filter run only ever removes files: the directory structure and all
names are preserved and every surviving file was present before.  `Dir2Le`
/ `Dir1Le` / `TreeLe` capture this "same shape, fewer files" relation
between the after- and before-trees. -/

def Dir2Le (a b : Dir2) : Prop :=
  a.name = b.name ∧ ∀ f ∈ a.files, f ∈ b.files

def Dir1Le (a b : Dir1) : Prop :=
  a.name = b.name ∧ List.Forall₂ Dir2Le a.subdirs b.subdirs

def TreeLe (s t : OutputTree) : Prop := List.Forall₂ Dir1Le s t

/-- No file called `fname` survives anywhere the filter is required to
have deleted it: in any top-level directory named `category`, neither in
the reference-view directory named `topName` nor in any subdirectory whose
lowered name is not `"top"`. -/
def NameAbsent (category topName fname : String) (tree : OutputTree) :
    Prop :=
  ∀ d1 ∈ tree, d1.name = category →
    ∀ v ∈ d1.subdirs, (v.name = topName ∨ pyLower v.name ≠ "top") →
      ∀ f ∈ v.files, f.name ≠ fname

/-! # Theorems -/

/-! ## C7: the orchestrator's setup step always fails to import -/

/-- C7: every invocation of the orchestrator's setup fails before any
output directory is created or any model is found: `src/output.py`
imports `CAMERA_POSITIONS` from `config`, but `config.py` defines only
`CAMERA_BASE_POSITIONS`, so loading the output module — and with it every
call of `create_output_folders`, `find_models` or `record_config` through
`main` — raises `ImportError: cannot import name CAMERA_POSITIONS` for
every input. -/
theorem mainSetup_always_import_error (inputCategories : List String) :
    mainSetup inputCategories = Except.error "CAMERA_POSITIONS" := rfl

/-! ## C1: what the variation seed does and does not make reproducible -/

/-- C1 (amended): the pseudo-random seed used by `randomize_model_pose` is
derived deterministically from the variation index and the object's
identity hash (`variation_index + hash(name) % 1000`), and because
`random.seed` discards the prior generator state, the Pose Synthesizer's
draws — and hence, for a fixed deterministic physics stepper and fixed
object geometry, its RESTED pose — are identical for fixed (hash,
variation index) regardless of the generator state left by earlier work.
(The enclosure material, lighting, object scale factor and camera
parameters are drawn before this re-seeding and are not covered; see the
counterexample.) -/
theorem randomize_model_pose_state_independent (p : PRNG)
    (physics : MeshObj → Pose → Nat → Pose) (obj : MeshObj) (hashName : Int)
    (variationIndex frames : Nat) (st st' : Int) :
    randomize_model_pose p physics obj hashName variationIndex frames st
      = randomize_model_pose p physics obj hashName variationIndex frames st'
      ∧ randomize_model_pose p physics obj hashName variationIndex frames st
      = randomize_model_pose p physics obj hashName variationIndex frames
          (p.seedFn ((variationIndex : Int) + hashName % 1000)) :=
  ⟨rfl, rfl⟩

/-- C1 (counterexample): two runs of the very same variation body — same
model (hash 0), same variation index 0, same configuration — started from
two different prior generator states produce different lighting, because
`setup_lighting` draws from the global generator before
`randomize_model_pose` re-seeds it.  So the (model, variation index) pair
does not reproduce the lighting independent of run order. -/
theorem renderVariation_lighting_differs :
    (renderVariation exP exPhys (some cubeRaw) 0 0 0).1.map
        (fun r => r.lights)
      ≠ (renderVariation exP exPhys (some cubeRaw) 0 0 1).1.map
        (fun r => r.lights) := by
  have hb2 : (create_box exP 0).2 = 6 := by
    norm_num [create_box, uniform, exP]
  have hl : setup_lighting exP 6 = (⟨5, (1, 9/10, 1)⟩, 10) := by
    norm_num [setup_lighting, uniform, exP, LIGHT_ENERGY_RANGE,
      LIGHT_COLOR_VARIATION]
  have hm : load_model exP (some cubeRaw) 10
      = (some ⟨(21/200, 21/200, 21/200), (0, 0, 0)⟩, 11) := by
    norm_num [load_model, uniform, exP, cubeRaw, is_object_inside_box,
      boundBox, MIN_OBJECT_DIMENSION, MAX_OBJECT_DIMENSION, BOX_SIZE]
  have hb2' : (create_box exP 1).2 = 7 := by
    norm_num [create_box, uniform, exP]
  have hl' : setup_lighting exP 7 = (⟨41/8, (9/10, 1, 9/10)⟩, 11) := by
    norm_num [setup_lighting, uniform, exP, LIGHT_ENERGY_RANGE,
      LIGHT_COLOR_VARIATION]
  have hm' : load_model exP (some cubeRaw) 11
      = (some ⟨(7/40, 7/40, 7/40), (0, 0, 0)⟩, 12) := by
    norm_num [load_model, uniform, exP, cubeRaw, is_object_inside_box,
      boundBox, MIN_OBJECT_DIMENSION, MAX_OBJECT_DIMENSION, BOX_SIZE]
  simp only [renderVariation, hb2, hl, hb2', hl', hm, hm', Option.map_some]
  intro h
  simp only [Option.map_some', Option.some.injEq] at h
  have := congrArg LightParams.energy h
  norm_num at this

/-! ## C8: camera positions stay inside the enclosure -/

theorem clamp_le_bounds (val lo hi : ℚ) (h : lo ≤ hi) :
    lo ≤ clamp val lo hi ∧ clamp val lo hi ≤ hi := by
  unfold clamp
  constructor
  · exact le_max_left lo (min val hi)
  · exact max_le h (min_le_right val hi)

theorem camera_step_contained (p : PRNG) (nb : String × (ℚ × ℚ × ℚ))
    (st : Int) :
    let c := (camera_step p nb st).1
    (-(BOX_SIZE / 2) ≤ c.location.1 ∧ c.location.1 ≤ BOX_SIZE / 2)
      ∧ (-(BOX_SIZE / 2) ≤ c.location.2.1 ∧ c.location.2.1 ≤ BOX_SIZE / 2)
      ∧ (-(BOX_SIZE / 2) ≤ c.location.2.2 ∧ c.location.2.2 ≤ BOX_SIZE / 2) := by
  have hb : -(BOX_SIZE / 2) ≤ BOX_SIZE / 2 := by norm_num [BOX_SIZE]
  refine ⟨?_, ?_, ?_⟩ <;>
    exact clamp_le_bounds _ _ _ hb

theorem cameras_from_bases_contained (p : PRNG)
    (bases : List (String × (ℚ × ℚ × ℚ))) :
    ∀ (st : Int) (c : Camera), c ∈ (cameras_from_bases p bases st).1 →
      (-(BOX_SIZE / 2) ≤ c.location.1 ∧ c.location.1 ≤ BOX_SIZE / 2)
        ∧ (-(BOX_SIZE / 2) ≤ c.location.2.1 ∧ c.location.2.1 ≤ BOX_SIZE / 2)
        ∧ (-(BOX_SIZE / 2) ≤ c.location.2.2 ∧ c.location.2.2 ≤ BOX_SIZE / 2) := by
  induction bases with
  | nil => intro st c hc; simp [cameras_from_bases] at hc
  | cons nb rest ih =>
    intro st c hc
    simp only [cameras_from_bases, List.mem_cons] at hc
    rcases hc with hc | hc
    · subst hc; exact camera_step_contained p nb st
    · exact ih _ c hc

/-- C8: for every camera created by `setup_cameras` and all sampled
jitter values, each coordinate of the camera's final position (base
position plus jitter, after clamping) lies within
`[-BOX_SIZE/2, BOX_SIZE/2]` on every axis. -/
theorem setup_cameras_contained (p : PRNG) (st : Int) :
    ((setup_cameras p st).1.all (fun c =>
      decide ((-(BOX_SIZE / 2) ≤ c.location.1 ∧ c.location.1 ≤ BOX_SIZE / 2)
        ∧ (-(BOX_SIZE / 2) ≤ c.location.2.1 ∧ c.location.2.1 ≤ BOX_SIZE / 2)
        ∧ (-(BOX_SIZE / 2) ≤ c.location.2.2 ∧ c.location.2.2 ≤ BOX_SIZE / 2))))
      = true := by
  rw [List.all_eq_true]
  intro c hc
  rw [decide_eq_true_eq]
  exact cameras_from_bases_contained p CAMERA_BASE_POSITIONS st c hc

/-! ## C9: enclosure material and light color randomization -/

theorem clamp01_bounds (x : ℚ) :
    0 ≤ min (max x 0) 1 ∧ min (max x 0) 1 ≤ 1 :=
  ⟨le_min (le_max_right x 0) zero_le_one, min_le_right _ 1⟩

theorem hsv_to_rgb_bounds (h s v : ℚ) (hh0 : 0 ≤ h) (hs0 : 0 ≤ s)
    (hs1 : s ≤ 1) (hv0 : 0 ≤ v) (hv1 : v ≤ 1) :
    (0 ≤ (hsv_to_rgb h s v).1 ∧ (hsv_to_rgb h s v).1 ≤ 1)
      ∧ (0 ≤ (hsv_to_rgb h s v).2.1 ∧ (hsv_to_rgb h s v).2.1 ≤ 1)
      ∧ (0 ≤ (hsv_to_rgb h s v).2.2 ∧ (hsv_to_rgb h s v).2.2 ≤ 1) := by
  have hvB : 0 ≤ v ∧ v ≤ 1 := ⟨hv0, hv1⟩
  by_cases hs : s = 0
  · simp only [hsv_to_rgb, if_pos hs]
    exact ⟨hvB, hvB, hvB⟩
  · have h6 : (0 : ℚ) ≤ h * 6 := by positivity
    have hpy : pyInt (h * 6) = ⌊h * 6⌋ := if_pos h6
    have hfr0 := Int.fract_nonneg (α := ℚ) (h * 6)
    have hfr1 := Int.fract_lt_one (α := ℚ) (h * 6)
    rw [Int.fract] at hfr0 hfr1
    simp only [hsv_to_rgb, if_neg hs, hpy]
    set f := h * 6 - ((⌊h * 6⌋ : ℤ) : ℚ) with hfdef
    have hsf0 : 0 ≤ s * f := mul_nonneg hs0 hfr0
    have hsf1 : s * f ≤ 1 := mul_le_one₀ hs1 hfr0 (le_of_lt hfr1)
    have hsg0 : 0 ≤ s * (1 - f) := mul_nonneg hs0 (by linarith)
    have hsg1 : s * (1 - f) ≤ 1 := mul_le_one₀ hs1 (by linarith) (by linarith)
    have hpB : 0 ≤ v * (1 - s) ∧ v * (1 - s) ≤ 1 :=
      ⟨mul_nonneg hv0 (by linarith), mul_le_one₀ hv1 (by linarith) (by linarith)⟩
    have hqB : 0 ≤ v * (1 - s * f) ∧ v * (1 - s * f) ≤ 1 :=
      ⟨mul_nonneg hv0 (by linarith), mul_le_one₀ hv1 (by linarith) (by linarith)⟩
    have htB : 0 ≤ v * (1 - s * (1 - f)) ∧ v * (1 - s * (1 - f)) ≤ 1 :=
      ⟨mul_nonneg hv0 (by linarith), mul_le_one₀ hv1 (by linarith) (by linarith)⟩
    split_ifs
    · exact ⟨hvB, htB, hpB⟩
    · exact ⟨hqB, hvB, hpB⟩
    · exact ⟨hpB, hvB, htB⟩
    · exact ⟨hpB, hqB, hvB⟩
    · exact ⟨htB, hpB, hvB⟩
    · exact ⟨hvB, hpB, hqB⟩

/-- C9 (amended): in `create_box`, the saturation and value each equal the
white base component plus an additive uniform offset clamped into `[0,1]`,
but the hue equals the base plus offset wrapped modulo 1 (Python `% 1.0`),
not clamped; and for all sampled offsets, every HSV-derived RGB base-color
channel and every light color channel produced by `setup_lighting` lies
within `[0, 1]`. -/
theorem create_box_material_randomization (p : PRNG) (st : Int) :
    let u1 := uniform p BOX_HUE_VARIATION.1 BOX_HUE_VARIATION.2 st
    let u2 := uniform p BOX_SATURATION_VARIATION.1
      BOX_SATURATION_VARIATION.2 u1.2
    let u3 := uniform p BOX_VALUE_VARIATION.1 BOX_VALUE_VARIATION.2 u2.2
    let m := (create_box p st).1
    let lp := (setup_lighting p st).1
    m.hue = Int.fract ((0 : ℚ) + u1.1)
      ∧ m.saturation = min (max ((0 : ℚ) + u2.1) 0) 1
      ∧ m.value = min (max ((1 : ℚ) + u3.1) 0) 1
      ∧ (0 ≤ m.baseColor.1 ∧ m.baseColor.1 ≤ 1)
      ∧ (0 ≤ m.baseColor.2.1 ∧ m.baseColor.2.1 ≤ 1)
      ∧ (0 ≤ m.baseColor.2.2 ∧ m.baseColor.2.2 ≤ 1)
      ∧ (0 ≤ lp.color.1 ∧ lp.color.1 ≤ 1)
      ∧ (0 ≤ lp.color.2.1 ∧ lp.color.2.1 ≤ 1)
      ∧ (0 ≤ lp.color.2.2 ∧ lp.color.2.2 ≤ 1) := by
  intro u1 u2 u3 m lp
  have hH : (0 : ℚ) ≤ Int.fract ((0 : ℚ) + u1.1) := Int.fract_nonneg _
  have hS := clamp01_bounds ((0 : ℚ) + u2.1)
  have hV := clamp01_bounds ((1 : ℚ) + u3.1)
  have hrgb := hsv_to_rgb_bounds (Int.fract ((0 : ℚ) + u1.1))
    (min (max ((0 : ℚ) + u2.1) 0) 1) (min (max ((1 : ℚ) + u3.1) 0) 1)
    hH hS.1 hS.2 hV.1 hV.2
  exact ⟨rfl, rfl, rfl, hrgb.1, hrgb.2.1, hrgb.2.2,
    clamp01_bounds _, clamp01_bounds _, clamp01_bounds _⟩

/-- C9 (counterexample): with a sampled hue offset of `-1/20`, the hue
computed by `create_box` is `19/20` (the offset is wrapped modulo 1),
whereas clamping the white base plus the offset into valid bounds would
give `0` — hue is not "base plus offset clamped into valid bounds". -/
theorem create_box_hue_wraps_not_clamps :
    (uniform exP9 BOX_HUE_VARIATION.1 BOX_HUE_VARIATION.2 0).1 = -(1/20)
      ∧ (create_box exP9 0).1.hue = 19/20
      ∧ min (max ((0 : ℚ) + -(1/20)) 0) 1 = 0
      ∧ (create_box exP9 0).1.hue ≠ min (max ((0 : ℚ) + -(1/20)) 0) 1 := by
  have hu : (uniform exP9 BOX_HUE_VARIATION.1 BOX_HUE_VARIATION.2 0).1
      = -(1/20) := by
    norm_num [uniform, exP9, BOX_HUE_VARIATION]
  have hfl : ⌊((0 : ℚ) + -(1/20))⌋ = -1 := by
    rw [Int.floor_eq_iff]
    norm_num
  have hhue : (create_box exP9 0).1.hue = 19/20 := by
    show Int.fract ((0 : ℚ)
      + (uniform exP9 BOX_HUE_VARIATION.1 BOX_HUE_VARIATION.2 0).1) = 19/20
    rw [hu, Int.fract, hfl]
    norm_num
  refine ⟨hu, hhue, by norm_num, ?_⟩
  rw [hhue]
  norm_num

/-! ## C6: every object returned by `load_model` fits the enclosure -/

/-- C6: when fit enforcement is enabled (it is: the check in `load_model`
is unconditional and `RESIZE_AND_FIT_OBJECT = True`), every object that
`load_model` returns has all eight world-space bounding-box corners within
the enclosure half-extent plus the tolerance on every axis, and hence
every object `render_model` passes to `randomize_model_pose` (collected in
the variation records) satisfies the same bound: an object violating it
yields `None` and is never posed. -/
theorem load_model_objects_fit (p : PRNG)
    (physics : MeshObj → Pose → Nat → Pose) (raw : Option RawMesh)
    (hashName : Int) (variation : Nat) (st : Int)
    (hwf : raw.all rawWellFormed = true) :
    (∀ obj st', load_model p raw st = (some obj, st') →
      is_object_inside_box obj BOX_SIZE (1/20) = true)
    ∧ (∀ re st2,
        renderVariation p physics raw hashName variation st = (some re, st2) →
        is_object_inside_box re.obj BOX_SIZE (1/20) = true) := by
  have main : ∀ (st0 : Int) (obj : MeshObj) (st' : Int),
      load_model p raw st0 = (some obj, st') →
      is_object_inside_box obj BOX_SIZE (1/20) = true := by
    intro st0 obj st' hload
    rcases raw with _ | r
    · simp [load_model] at hload
    · rw [Option.all_some] at hwf
      simp only [load_model] at hload
      set e1 := r.hi.1 - r.lo.1 with he1
      set e2 := r.hi.2.1 - r.lo.2.1 with he2
      set e3 := r.hi.2.2 - r.lo.2.2 with he3
      rw [rawWellFormed] at hwf
      simp only [Bool.and_eq_true, decide_eq_true_eq] at hwf
      have he1n : 0 ≤ e1 := by rw [he1]; linarith [hwf.1.1]
      have he2n : 0 ≤ e2 := by rw [he2]; linarith [hwf.1.2]
      have he3n : 0 ≤ e3 := by rw [he3]; linarith [hwf.2]
      by_cases hpos : 0 < max e1 (max e2 e3)
      · rw [if_pos hpos] at hload
        by_cases hfit : is_object_inside_box
            ⟨(e1 * ((uniform p MIN_OBJECT_DIMENSION MAX_OBJECT_DIMENSION st0).1
                / max e1 (max e2 e3)) / 2,
              e2 * ((uniform p MIN_OBJECT_DIMENSION MAX_OBJECT_DIMENSION st0).1
                / max e1 (max e2 e3)) / 2,
              e3 * ((uniform p MIN_OBJECT_DIMENSION MAX_OBJECT_DIMENSION st0).1
                / max e1 (max e2 e3)) / 2), (0, 0, 0)⟩ BOX_SIZE (1/20) = true
        · rw [if_pos hfit] at hload
          injection hload with hA hB
          injection hA with hobj
          rw [← hobj]
          exact hfit
        · rw [Bool.not_eq_true] at hfit
          rw [if_neg (by rw [hfit]; exact Bool.false_ne_true)] at hload
          exact absurd hload (by simp)
      · rw [if_neg hpos] at hload
        injection hload with hA hB
        injection hA with hobj
        have hmax : max e1 (max e2 e3) ≤ 0 := le_of_not_lt hpos
        have h1z : e1 = 0 := le_antisymm
          (le_trans (le_max_left _ _) hmax) he1n
        have h2z : e2 = 0 := le_antisymm
          (le_trans (le_trans (le_max_left _ _) (le_max_right e1 _)) hmax) he2n
        have h3z : e3 = 0 := le_antisymm
          (le_trans (le_trans (le_max_right _ _) (le_max_right e1 _)) hmax) he3n
        rw [← hobj, h1z, h2z, h3z]
        norm_num [is_object_inside_box, boundBox, BOX_SIZE]
  constructor
  · exact main st
  · intro re st2 hrv
    simp only [renderVariation] at hrv
    rcases hm : load_model p raw (setup_lighting p (create_box p st).2).2
      with ⟨mo, ms⟩
    rw [hm] at hrv
    rcases mo with _ | obj
    · simp at hrv
    · simp only [Option.some.injEq, Prod.mk.injEq] at hrv
      have hobj : re.obj = obj := by rw [← hrv.1]
      rw [hobj]
      exact main _ obj ms hm

/-! ## C3: a failed load aborts the whole variation loop -/

theorem renderVariation_some_variation (p : PRNG)
    (physics : MeshObj → Pose → Nat → Pose) (raw : Option RawMesh)
    (hashName : Int) (idx : Nat) (st : Int) (re : VariationRecord)
    (st2 : Int)
    (h : renderVariation p physics raw hashName idx st = (some re, st2)) :
    re.variation = idx := by
  simp only [renderVariation] at h
  rcases hm : load_model p raw (setup_lighting p (create_box p st).2).2
    with ⟨mo, ms⟩
  rw [hm] at h
  rcases mo with _ | obj
  · simp at h
  · simp only [Option.some.injEq, Prod.mk.injEq] at h
    rw [← h.1]

theorem render_loop_initial_segment (p : PRNG)
    (physics : MeshObj → Pose → Nat → Pose) (raw : Option RawMesh)
    (hashName : Int) :
    ∀ (remaining idx : Nat) (st : Int),
      ∃ k ≤ remaining,
        (render_loop p physics raw hashName idx remaining st).2.1.map
            (fun r => r.variation) = List.range' idx k
        ∧ ((render_loop p physics raw hashName idx remaining st).1 = true
            ↔ k = remaining) := by
  intro remaining
  induction remaining with
  | zero =>
    intro idx st
    exact ⟨0, le_refl 0, by simp [render_loop], by simp [render_loop]⟩
  | succ rem ih =>
    intro idx st
    rcases hrv : renderVariation p physics raw hashName idx st with ⟨mo, st'⟩
    match mo, hrv with
    | none, hrv =>
      refine ⟨0, Nat.zero_le _, ?_, ?_⟩
      · simp [render_loop, hrv]
      · simp [render_loop, hrv]
    | some re, hrv =>
      obtain ⟨k, hk, hmap, hflag⟩ := ih (idx + 1) st'
      refine ⟨k + 1, Nat.succ_le_succ hk, ?_, ?_⟩
      · simp only [render_loop, hrv, List.map_cons, List.range'_succ]
        rw [renderVariation_some_variation p physics raw hashName idx st re
          st' hrv, hmap]
      · simp only [render_loop, hrv]
        rw [hflag]
        exact ⟨fun h => by rw [h], fun h => Nat.succ_injective h⟩

/-- C3 (amended): the rendered variations of a `render_model` call always
form an initial segment `0, 1, ..., k-1` of the variation range, and the
call reports success exactly when `k` is the full configured count: as
soon as `load_model` returns `None` at any variation — first or later —
`render_model` returns `False` immediately and the remaining variations of
that model are never attempted (they are not skipped individually). -/
theorem render_model_initial_segment (p : PRNG)
    (physics : MeshObj → Pose → Nat → Pose) (raw : Option RawMesh)
    (hashName : Int) (variationsPerModel : Nat) (st : Int) :
    ∃ k ≤ variationsPerModel,
      (render_model p physics raw hashName variationsPerModel st).2.1.map
          (fun r => r.variation) = List.range k
      ∧ ((render_model p physics raw hashName variationsPerModel st).1 = true
          ↔ k = variationsPerModel) := by
  obtain ⟨k, hk, hmap, hflag⟩ :=
    render_loop_initial_segment p physics raw hashName variationsPerModel 0 st
  exact ⟨k, hk, by rw [List.range_eq_range']; exact hmap, hflag⟩

theorem render_loop_succ_eq (p : PRNG)
    (physics : MeshObj → Pose → Nat → Pose) (raw : Option RawMesh)
    (hashName : Int) (idx rem : Nat) (st : Int) :
    render_loop p physics raw hashName idx (rem + 1) st
      = match renderVariation p physics raw hashName idx st with
        | (none, st') => (false, [], st')
        | (some rec1, st') =>
          let rest := render_loop p physics raw hashName (idx + 1) rem st'
          (rest.1, rec1 :: rest.2.1, rest.2.2) := rfl

/-- C3 (counterexample): a run of `render_model` over three variations in
which the first load succeeds but the second variation's `load_model`
returns `None` because `is_object_inside_box` is false (the drawn target
dimension makes the scaled bounding box leave the enclosure).  The claim
says only that single variation is skipped; in fact the call returns
`False` at once, renders only variation 0, and never attempts variation 2. -/
theorem render_model_fit_failure_aborts_loop :
    (render_model exP3 exPhys (some cubeRaw) 0 3 0).1 = false
      ∧ (render_model exP3 exPhys (some cubeRaw) 0 3 0).2.1.map
          (fun r => r.variation) = [0]
      ∧ load_model exP3 (some cubeRaw) 15
          = (none, 16)
      ∧ is_object_inside_box
          ⟨(301/200, 301/200, 301/200), (0, 0, 0)⟩ BOX_SIZE (1/20) = false := by
  have A1 : (create_box exP3 0).2 = 6 := by
    norm_num [create_box, uniform, exP3]
  have A2 : (setup_lighting exP3 6).2 = 10 := by
    norm_num [setup_lighting, uniform, exP3]
  have A3 : load_model exP3 (some cubeRaw) 10
      = (some ⟨(21/200, 21/200, 21/200), (0, 0, 0)⟩, 11) := by
    norm_num [load_model, uniform, exP3, cubeRaw, is_object_inside_box,
      boundBox, List.all_cons, List.all_nil, MIN_OBJECT_DIMENSION,
      MAX_OBJECT_DIMENSION, BOX_SIZE]
  have A4 : (setup_cameras exP3 11).2 = 46 := by
    norm_num [setup_cameras, cameras_from_bases, camera_step, uniform, exP3,
      CAMERA_BASE_POSITIONS]
  have A5 : (randomize_model_pose exP3 exPhys
      ⟨(21/200, 21/200, 21/200), (0, 0, 0)⟩ 0 0 60 46).2 = 5 := by
    norm_num [randomize_model_pose, uniform, exP3]
  have B1 : (create_box exP3 5).2 = 11 := by
    norm_num [create_box, uniform, exP3]
  have B2 : (setup_lighting exP3 11).2 = 15 := by
    norm_num [setup_lighting, uniform, exP3]
  have B3 : load_model exP3 (some cubeRaw) 15 = (none, 16) := by
    norm_num [load_model, uniform, exP3, cubeRaw, is_object_inside_box,
      boundBox, List.all_cons, List.all_nil, MIN_OBJECT_DIMENSION,
      MAX_OBJECT_DIMENSION, BOX_SIZE]
  have hrv0 : renderVariation exP3 exPhys (some cubeRaw) 0 0 0
      = (some ⟨0, ⟨(21/200, 21/200, 21/200), (0, 0, 0)⟩,
          (create_box exP3 0).1, (setup_lighting exP3 6).1,
          (setup_cameras exP3 11).1,
          (randomize_model_pose exP3 exPhys
            ⟨(21/200, 21/200, 21/200), (0, 0, 0)⟩ 0 0 60 46).1⟩, 5) := by
    simp only [renderVariation, A1, A2, A3, A4, A5]
  have hrv1 : renderVariation exP3 exPhys (some cubeRaw) 0 1 5
      = (none, 16) := by
    simp only [renderVariation, B1, B2, B3]
  have hloop : render_model exP3 exPhys (some cubeRaw) 0 3 0
      = (false, [⟨0, ⟨(21/200, 21/200, 21/200), (0, 0, 0)⟩,
          (create_box exP3 0).1, (setup_lighting exP3 6).1,
          (setup_cameras exP3 11).1,
          (randomize_model_pose exP3 exPhys
            ⟨(21/200, 21/200, 21/200), (0, 0, 0)⟩ 0 0 60 46).1⟩], 16) := by
    simp only [render_model, render_loop, hrv0, hrv1]
  refine ⟨by rw [hloop], by rw [hloop]; simp, B3, ?_⟩
  norm_num [is_object_inside_box, boundBox, List.all_cons, List.all_nil,
    BOX_SIZE]

/-- C6 (witness): a concrete well-formed import for which `load_model`
succeeds; the returned object passes the enclosure check. -/
theorem load_model_objects_fit_witness :
    ((some rawZero : Option RawMesh).all rawWellFormed = true)
      ∧ is_object_inside_box ⟨(0, 0, 0), (0, 0, 0)⟩ BOX_SIZE (1/20) = true :=
  ⟨by decide,
    (load_model_objects_fit exP exPhys (some rawZero) 0 0 0 (by decide)).1
      ⟨(0, 0, 0), (0, 0, 0)⟩ 0 (by simp [load_model, rawZero])⟩

/-! ## Structural lemmas about filter runs -/

theorem forall2_refl_of {α : Type} {R : α → α → Prop}
    (h : ∀ a, R a a) : ∀ l : List α, List.Forall₂ R l l := by
  intro l
  induction l with
  | nil => exact List.Forall₂.nil
  | cons a t ih => exact List.Forall₂.cons (h a) ih

theorem forall2_trans_of {α : Type} {R : α → α → Prop}
    (h : ∀ a b c, R a b → R b c → R a c) :
    ∀ {l1 l2 l3 : List α}, List.Forall₂ R l1 l2 → List.Forall₂ R l2 l3 →
      List.Forall₂ R l1 l3 := by
  intro l1 l2 l3 h12 h23
  induction h12 generalizing l3 with
  | nil => cases h23; exact List.Forall₂.nil
  | cons hab htl ih =>
    cases h23 with
    | cons hbc htl' => exact List.Forall₂.cons (h _ _ _ hab hbc) (ih htl')

theorem forall2_mem_left {α : Type} {R : α → α → Prop} :
    ∀ {l1 l2 : List α}, List.Forall₂ R l1 l2 → ∀ a ∈ l1,
      ∃ b ∈ l2, R a b := by
  intro l1 l2 h
  induction h with
  | nil => intro a ha; exact absurd ha (List.not_mem_nil a)
  | cons hab htl ih =>
    intro a ha
    rcases List.mem_cons.mp ha with rfl | ha
    · exact ⟨_, List.mem_cons_self _ _, hab⟩
    · obtain ⟨b, hb, hR⟩ := ih a ha
      exact ⟨b, List.mem_cons_of_mem _ hb, hR⟩

theorem dir2Le_refl (d : Dir2) : Dir2Le d d := ⟨rfl, fun _ hf => hf⟩

theorem dir2Le_trans (a b c : Dir2) (hab : Dir2Le a b) (hbc : Dir2Le b c) :
    Dir2Le a c :=
  ⟨hab.1.trans hbc.1, fun f hf => hbc.2 f (hab.2 f hf)⟩

theorem dir1Le_refl (d : Dir1) : Dir1Le d d :=
  ⟨rfl, forall2_refl_of dir2Le_refl d.subdirs⟩

theorem dir1Le_trans (a b c : Dir1) (hab : Dir1Le a b) (hbc : Dir1Le b c) :
    Dir1Le a c :=
  ⟨hab.1.trans hbc.1, forall2_trans_of dir2Le_trans hab.2 hbc.2⟩

theorem treeLe_refl (t : OutputTree) : TreeLe t t :=
  forall2_refl_of dir1Le_refl t

theorem treeLe_trans {s t u : OutputTree} (hst : TreeLe s t)
    (htu : TreeLe t u) : TreeLe s u :=
  forall2_trans_of dir1Le_trans hst htu

theorem forall2_dir2_names {a b : List Dir2}
    (h : List.Forall₂ Dir2Le a b) :
    a.map (fun d => d.name) = b.map (fun d => d.name) := by
  induction h with
  | nil => rfl
  | cons hab _ ih => simp [ih, hab.1]

theorem treeLe_names {s t : OutputTree} (h : TreeLe s t) :
    s.map (fun d => d.name) = t.map (fun d => d.name) := by
  induction h with
  | nil => rfl
  | cons hab _ ih => simp [ih, hab.1]

theorem removeFileByName_le (d : Dir2) (fname : String) :
    Dir2Le (removeFileByName d fname) d :=
  ⟨rfl, fun _ hf => List.mem_of_mem_filter hf⟩

theorem updateDir2s_le (l : List Dir2) (n : String) (g : Dir2 → Dir2)
    (hg : ∀ d, Dir2Le (g d) d) :
    List.Forall₂ Dir2Le (updateDir2s l n g) l := by
  induction l with
  | nil => exact List.Forall₂.nil
  | cons d rest ih =>
    by_cases hd : d.name = n
    · simp only [updateDir2s, if_pos hd]
      exact List.Forall₂.cons (hg d) (forall2_refl_of dir2Le_refl rest)
    · simp only [updateDir2s, if_neg hd]
      exact List.Forall₂.cons (dir2Le_refl d) ih

theorem map_siblings_le (l : List Dir2) (fname : String) :
    List.Forall₂ Dir2Le
      (l.map (fun v =>
        if pyLower v.name ≠ "top" then removeFileByName v fname else v)) l := by
  induction l with
  | nil => exact List.Forall₂.nil
  | cons d rest ih =>
    refine List.Forall₂.cons ?_ ih
    by_cases hd : pyLower d.name ≠ "top"
    · simp only [if_pos hd]; exact removeFileByName_le d fname
    · simp only [if_neg hd]; exact dir2Le_refl d

theorem updateDir1s_le (t : OutputTree) (n : String) (g : Dir1 → Dir1)
    (hg : ∀ d, Dir1Le (g d) d) : TreeLe (updateDir1s t n g) t := by
  induction t with
  | nil => exact List.Forall₂.nil
  | cons d rest ih =>
    by_cases hd : d.name = n
    · simp only [updateDir1s, if_pos hd]
      exact List.Forall₂.cons (hg d) (treeLe_refl rest)
    · simp only [updateDir1s, if_neg hd]
      exact List.Forall₂.cons (dir1Le_refl d) ih

theorem removeTopFile_le (t : OutputTree) (c tn fn : String) :
    TreeLe (removeTopFile t c tn fn) t :=
  updateDir1s_le t c _ (fun d =>
    ⟨rfl, updateDir2s_le d.subdirs tn _ (fun d2 => removeFileByName_le d2 fn)⟩)

theorem removeInSiblingViews_le (t : OutputTree) (c fn : String) :
    TreeLe (removeInSiblingViews t c fn) t :=
  updateDir1s_le t c _ (fun d => ⟨rfl, map_siblings_le d.subdirs fn⟩)

theorem processFileStep_tree_le (dm : Bool) (maxT : ℚ) (minT : Option ℚ)
    (c tn : String) (acc : FilterResult) (f : ImgFile) :
    TreeLe (processFileStep dm maxT minT c tn acc f).tree acc.tree := by
  simp only [processFileStep]
  split_ifs
  · exact treeLe_refl acc.tree
  · exact treeLe_trans
      (removeInSiblingViews_le (removeTopFile acc.tree c tn f.name) c f.name)
      (removeTopFile_le acc.tree c tn f.name)
  · exact treeLe_refl acc.tree
  · exact treeLe_refl acc.tree

theorem foldl_tree_le {α : Type} (step : FilterResult → α → FilterResult)
    (hstep : ∀ acc a, TreeLe (step acc a).tree acc.tree) :
    ∀ (l : List α) (acc : FilterResult),
      TreeLe ((l.foldl step acc).tree) acc.tree := by
  intro l
  induction l with
  | nil => intro acc; exact treeLe_refl acc.tree
  | cons a rest ih =>
    intro acc
    exact treeLe_trans (ih (step acc a)) (hstep acc a)

theorem processDir2_tree_le (dm : Bool) (maxT : ℚ) (minT : Option ℚ)
    (c : String) (acc : FilterResult) (d2 : Dir2) :
    TreeLe (processDir2 dm maxT minT c acc d2).tree acc.tree := by
  unfold processDir2
  split_ifs
  · exact foldl_tree_le _ (processFileStep_tree_le dm maxT minT c d2.name)
      d2.files acc
  · exact treeLe_refl acc.tree

theorem processDir1_tree_le (dm : Bool) (maxT : ℚ) (minT : Option ℚ)
    (acc : FilterResult) (d1 : Dir1) :
    TreeLe (processDir1 dm maxT minT acc d1).tree acc.tree :=
  foldl_tree_le _ (fun acc2 d2 => processDir2_tree_le dm maxT minT d1.name acc2 d2)
    d1.subdirs acc

theorem process_tree_le (T : OutputTree) (maxT : ℚ) (minT : Option ℚ)
    (dm : Bool) :
    TreeLe (process_top_view_renders_with_sync T maxT minT dm).tree T :=
  foldl_tree_le _ (fun acc d1 => processDir1_tree_le dm maxT minT acc d1) T
    ⟨T, 0, 0⟩

theorem nameAbsent_mono {s t : OutputTree} (hle : TreeLe s t)
    {c tn fn : String} (ha : NameAbsent c tn fn t) : NameAbsent c tn fn s := by
  intro d1 hd1 hname v hv hcond f hf
  obtain ⟨d1', hd1', hle1⟩ := forall2_mem_left hle d1 hd1
  obtain ⟨v', hv', hle2⟩ := forall2_mem_left hle1.2 v hv
  refine ha d1' hd1' (hle1.1 ▸ hname) v' hv' ?_ f (hle2.2 f hf)
  rcases hcond with h | h
  · exact Or.inl (hle2.1 ▸ h)
  · exact Or.inr (hle2.1 ▸ h)

theorem removeFileByName_absent (d : Dir2) (fn : String) :
    ∀ f ∈ (removeFileByName d fn).files, f.name ≠ fn := by
  intro f hf
  simp only [removeFileByName, List.mem_filter, decide_eq_true_eq] at hf
  exact hf.2

theorem updateDir2s_top_absent (l : List Dir2) (tn fn : String)
    (hnd : (l.map (fun d => d.name)).Nodup) :
    ∀ v ∈ updateDir2s l tn (fun d2 => removeFileByName d2 fn),
      v.name = tn → ∀ f ∈ v.files, f.name ≠ fn := by
  induction l with
  | nil => intro v hv; simp [updateDir2s] at hv
  | cons d rest ih =>
    simp only [List.map_cons, List.nodup_cons] at hnd
    intro v hv hvn f hf
    by_cases hd : d.name = tn
    · simp only [updateDir2s, if_pos hd] at hv
      rcases List.mem_cons.mp hv with rfl | hv
      · exact removeFileByName_absent d fn f hf
      · have hmem : v.name ∈ rest.map (fun x => x.name) :=
          List.mem_map_of_mem (fun x => x.name) hv
        rw [hvn, ← hd] at hmem
        exact absurd hmem hnd.1
    · simp only [updateDir2s, if_neg hd] at hv
      rcases List.mem_cons.mp hv with rfl | hv
      · exact absurd hvn hd
      · exact ih hnd.2 v hv hvn f hf

theorem establish_absent (t : OutputTree) (c tn fn : String)
    (hnd : (t.map (fun d => d.name)).Nodup)
    (hnd2 : ∀ d1 ∈ t, d1.name = c →
      (d1.subdirs.map (fun d => d.name)).Nodup) :
    NameAbsent c tn fn (removeInSiblingViews (removeTopFile t c tn fn) c fn) := by
  induction t with
  | nil =>
    intro d1 hd1
    simp [removeTopFile, removeInSiblingViews, updateDir1s] at hd1
  | cons d rest ih =>
    simp only [List.map_cons, List.nodup_cons] at hnd
    by_cases hd : d.name = c
    · simp only [removeTopFile, removeInSiblingViews, updateDir1s, if_pos hd]
      intro d1 hd1 hname v hv hcond f hf
      rcases List.mem_cons.mp hd1 with rfl | hd1
      · simp only at hv
        obtain ⟨v0, hv0, hveq⟩ := List.mem_map.mp hv
        by_cases hlow : pyLower v0.name ≠ "top"
        · rw [if_pos hlow] at hveq
          exact removeFileByName_absent v0 fn f (hveq ▸ hf)
        · rw [if_neg hlow] at hveq
          subst hveq
          rcases hcond with hvn | hvn
          · exact updateDir2s_top_absent d.subdirs tn fn
              (hnd2 d (List.mem_cons_self d rest) hd) v0 hv0 hvn f hf
          · exact absurd (not_not.mp hlow) hvn
      · have hmem : d1.name ∈ rest.map (fun x => x.name) :=
          List.mem_map_of_mem (fun x => x.name) hd1
        rw [hname, ← hd] at hmem
        exact absurd hmem hnd.1
    · simp only [removeTopFile, removeInSiblingViews, updateDir1s, if_neg hd]
      intro d1 hd1 hname v hv hcond f hf
      rcases List.mem_cons.mp hd1 with rfl | hd1
      · exact absurd hname hd
      · exact ih hnd.2
          (fun da hda hdac => hnd2 da (List.mem_cons_of_mem d hda) hdac)
          d1 hd1 hname v hv hcond f hf

theorem processDir1_decomp (dm : Bool) (maxT : ℚ) (minT : Option ℚ)
    (acc : FilterResult) (d1 : Dir1) (m1 m2 : List Dir2) (d2 : Dir2)
    (hsub : d1.subdirs = m1 ++ d2 :: m2) :
    processDir1 dm maxT minT acc d1
      = List.foldl (fun a x => processDir2 dm maxT minT d1.name a x)
          (processDir2 dm maxT minT d1.name
            (List.foldl (fun a x => processDir2 dm maxT minT d1.name a x)
              acc m1) d2) m2 := by
  rw [processDir1, hsub, List.foldl_append, List.foldl_cons]

theorem processDir2_decomp (dm : Bool) (maxT : ℚ) (minT : Option ℚ)
    (c : String) (acc : FilterResult) (d2 : Dir2) (k1 k2 : List ImgFile)
    (f : ImgFile) (htop : pyLower d2.name = "top")
    (hfiles : d2.files = k1 ++ f :: k2) :
    processDir2 dm maxT minT c acc d2
      = List.foldl (processFileStep dm maxT minT c d2.name)
          (processFileStep dm maxT minT c d2.name
            (List.foldl (processFileStep dm maxT minT c d2.name) acc k1) f)
          k2 := by
  rw [processDir2, if_pos htop, hfiles, List.foldl_append, List.foldl_cons]

theorem processFileStep_reject (maxT : ℚ) (minT : Option ℚ)
    (c tn : String) (acc : FilterResult) (f : ImgFile)
    (hpng : isPng f.name = true)
    (hrej : (too_bright maxT (avgBrightness f.pixels)
      || too_dark minT (avgBrightness f.pixels)) = true) :
    processFileStep false maxT minT c tn acc f
      = ⟨removeInSiblingViews (removeTopFile acc.tree c tn f.name) c f.name,
          acc.deleted + 1, acc.kept⟩ := by
  simp only [processFileStep, hpng, hrej, if_true, Bool.false_eq_true,
    if_false, ite_true, ite_false]

/-- Backbone of the cross-view and idempotence claims: once any rejected
reference-view file has been processed by a filter run, its name is absent
from the reference-view directory and from all non-reference sibling
directories of its category, in the final tree of the run. -/
theorem process_absent (T : OutputTree) (maxT : ℚ) (minT : Option ℚ)
    (hnd : (T.map (fun d => d.name)).Nodup)
    (hnd2 : ∀ d1 ∈ T, (d1.subdirs.map (fun d => d.name)).Nodup)
    {d1 : Dir1} (hd1 : d1 ∈ T) {d2 : Dir2} (hd2 : d2 ∈ d1.subdirs)
    (htop : pyLower d2.name = "top") {f : ImgFile} (hf : f ∈ d2.files)
    (hpng : isPng f.name = true)
    (hrej : (too_bright maxT (avgBrightness f.pixels)
      || too_dark minT (avgBrightness f.pixels)) = true) :
    NameAbsent d1.name d2.name f.name
      (process_top_view_renders_with_sync T maxT minT false).tree := by
  obtain ⟨l1, l2, hT⟩ := List.append_of_mem hd1
  obtain ⟨m1, m2, hsub⟩ := List.append_of_mem hd2
  obtain ⟨k1, k2, hfiles⟩ := List.append_of_mem hf
  subst hT
  rw [show process_top_view_renders_with_sync (l1 ++ d1 :: l2) maxT minT false
      = List.foldl (processDir1 false maxT minT) ⟨l1 ++ d1 :: l2, 0, 0⟩
          (l1 ++ d1 :: l2) from rfl]
  rw [List.foldl_append, List.foldl_cons]
  rw [processDir1_decomp false maxT minT _ d1 m1 m2 d2 hsub]
  rw [processDir2_decomp false maxT minT d1.name _ d2 k1 k2 f htop hfiles]
  rw [processFileStep_reject maxT minT d1.name d2.name _ f hpng hrej]
  set E1 := List.foldl (processFileStep false maxT minT d1.name d2.name)
    (List.foldl (fun a x => processDir2 false maxT minT d1.name a x)
      (List.foldl (processDir1 false maxT minT) ⟨l1 ++ d1 :: l2, 0, 0⟩ l1)
      m1) k1 with hE1
  have hE1le : TreeLe E1.tree (l1 ++ d1 :: l2) := by
    rw [hE1]
    refine treeLe_trans (foldl_tree_le _
      (processFileStep_tree_le false maxT minT d1.name d2.name) k1 _) ?_
    refine treeLe_trans (foldl_tree_le _
      (fun acc2 x => processDir2_tree_le false maxT minT d1.name acc2 x)
      m1 _) ?_
    exact foldl_tree_le _
      (fun acc2 x => processDir1_tree_le false maxT minT acc2 x) l1
      ⟨l1 ++ d1 :: l2, 0, 0⟩
  have habs : NameAbsent d1.name d2.name f.name
      (removeInSiblingViews (removeTopFile E1.tree d1.name d2.name f.name)
        d1.name f.name) := by
    refine establish_absent E1.tree d1.name d2.name f.name ?_ ?_
    · rw [treeLe_names hE1le]
      exact hnd
    · intro da hda _
      obtain ⟨db, hdb, hledb⟩ := forall2_mem_left hE1le da hda
      rw [forall2_dir2_names hledb.2]
      exact hnd2 db hdb
  refine nameAbsent_mono ?_ habs
  refine treeLe_trans (foldl_tree_le _
    (fun acc2 x => processDir1_tree_le false maxT minT acc2 x) l2 _) ?_
  refine treeLe_trans (foldl_tree_le _
    (fun acc2 x => processDir2_tree_le false maxT minT d1.name acc2 x)
    m2 _) ?_
  exact foldl_tree_le _
    (processFileStep_tree_le false maxT minT d1.name d2.name) k2 _

/-! ## C4: a rejected multi-view image set disappears as a whole -/

/-- C4: on any output tree of the layout the filter traverses (with the
unique names of a real file system and a single reference-view directory
per category directory), whenever a run with `debug_mode=False` rejects a
reference-view image, after the run no file with that image's name exists
in the reference-view directory nor in any other view directory of that
category: the multi-view image set is removed as a whole. -/
theorem process_deletes_whole_image_set (T : OutputTree) (maxT : ℚ)
    (minT : Option ℚ) (d1 : Dir1) (d2 : Dir2) (f : ImgFile)
    (hnd : (T.map (fun d => d.name)).Nodup)
    (hnd2 : ∀ da ∈ T, (da.subdirs.map (fun d => d.name)).Nodup)
    (hd1 : d1 ∈ T) (hd2 : d2 ∈ d1.subdirs)
    (htop : pyLower d2.name = "top")
    (huniq : ∀ v ∈ d1.subdirs, pyLower v.name = "top" → v.name = d2.name)
    (hf : f ∈ d2.files) (hpng : isPng f.name = true)
    (hrej : (too_bright maxT (avgBrightness f.pixels)
      || too_dark minT (avgBrightness f.pixels)) = true) :
    f.name ∉ filesUnder
      (process_top_view_renders_with_sync T maxT minT false).tree d1.name := by
  intro hmem
  have habs := process_absent T maxT minT hnd hnd2 hd1 hd2 htop hf hpng hrej
  simp only [filesUnder, List.mem_flatMap, List.mem_filter,
    decide_eq_true_eq, List.mem_map] at hmem
  obtain ⟨d1', ⟨hd1'R, hd1'name⟩, v, hv, g, hg, hgname⟩ := hmem
  have hle := process_tree_le T maxT minT false
  have hcond : v.name = d2.name ∨ pyLower v.name ≠ "top" := by
    by_cases hvlow : pyLower v.name = "top"
    · obtain ⟨db, hdb, hledb⟩ := forall2_mem_left hle d1' hd1'R
      have hdbd1 : db = d1 := by
        refine List.inj_on_of_nodup_map hnd hdb hd1 ?_
        rw [← hledb.1, hd1'name]
      obtain ⟨v'', hv'', hlev⟩ := forall2_mem_left hledb.2 v hv
      rw [hdbd1] at hv''
      have : v''.name = d2.name := by
        refine huniq v'' hv'' ?_
        rw [← hlev.1]
        exact hvlow
      exact Or.inl (hlev.1.trans this)
    · exact Or.inr hvlow
  exact habs d1' hd1'R hd1'name v hv hcond g hg hgname

/-- C4 (witness): a concrete category-major tree where `bad.png` is
rejected in the reference view — after the run its name is gone from every
view directory of the category `boxes`. -/
theorem process_deletes_whole_image_set_witness :
    "bad.png" ∉ filesUnder
      (process_top_view_renders_with_sync
        [⟨"boxes", [⟨"top", [⟨"bad.png", [246]⟩, ⟨"ok.png", [200]⟩]⟩,
          ⟨"front_left", [⟨"bad.png", [10]⟩, ⟨"ok.png", [10]⟩]⟩]⟩]
        245 none false).tree "boxes" :=
  process_deletes_whole_image_set
    [⟨"boxes", [⟨"top", [⟨"bad.png", [246]⟩, ⟨"ok.png", [200]⟩]⟩,
      ⟨"front_left", [⟨"bad.png", [10]⟩, ⟨"ok.png", [10]⟩]⟩]⟩]
    245 none
    ⟨"boxes", [⟨"top", [⟨"bad.png", [246]⟩, ⟨"ok.png", [200]⟩]⟩,
      ⟨"front_left", [⟨"bad.png", [10]⟩, ⟨"ok.png", [10]⟩]⟩]⟩
    ⟨"top", [⟨"bad.png", [246]⟩, ⟨"ok.png", [200]⟩]⟩
    ⟨"bad.png", [246]⟩
    (by decide) (by decide) (by decide) (by decide) (by decide) (by decide)
    (by decide) (by decide)
    (by simp [too_bright, too_dark, avgBrightness]; decide)

/-! ## C10: re-filtering is idempotent -/

theorem processFileStep_keep (dm : Bool) (maxT : ℚ) (minT : Option ℚ)
    (c tn : String) (acc : FilterResult) (f : ImgFile)
    (h : isPng f.name = true →
      (too_bright maxT (avgBrightness f.pixels)
        || too_dark minT (avgBrightness f.pixels)) = false) :
    (processFileStep dm maxT minT c tn acc f).tree = acc.tree
      ∧ (processFileStep dm maxT minT c tn acc f).deleted = acc.deleted := by
  by_cases hp : isPng f.name = true
  · simp [processFileStep, hp, h hp]
  · simp [processFileStep, hp]

theorem foldl_keep {α : Type} (step : FilterResult → α → FilterResult)
    (P : α → Prop)
    (hstep : ∀ acc a, P a → (step acc a).tree = acc.tree
      ∧ (step acc a).deleted = acc.deleted) :
    ∀ (l : List α), (∀ a ∈ l, P a) → ∀ acc,
      ((l.foldl step acc).tree = acc.tree
        ∧ (l.foldl step acc).deleted = acc.deleted) := by
  intro l
  induction l with
  | nil => intro _ acc; exact ⟨rfl, rfl⟩
  | cons a rest ih =>
    intro hP acc
    have h1 := hstep acc a (hP a (List.mem_cons_self a rest))
    have h2 := ih (fun x hx => hP x (List.mem_cons_of_mem a hx)) (step acc a)
    simp only [List.foldl_cons]
    exact ⟨h2.1.trans h1.1, h2.2.trans h1.2⟩

theorem processDir2_keep (dm : Bool) (maxT : ℚ) (minT : Option ℚ)
    (c : String) (acc : FilterResult) (d2 : Dir2)
    (h : pyLower d2.name = "top" → ∀ f ∈ d2.files, isPng f.name = true →
      (too_bright maxT (avgBrightness f.pixels)
        || too_dark minT (avgBrightness f.pixels)) = false) :
    (processDir2 dm maxT minT c acc d2).tree = acc.tree
      ∧ (processDir2 dm maxT minT c acc d2).deleted = acc.deleted := by
  by_cases htop : pyLower d2.name = "top"
  · simp only [processDir2, if_pos htop]
    exact foldl_keep _ (fun f => isPng f.name = true →
        (too_bright maxT (avgBrightness f.pixels)
          || too_dark minT (avgBrightness f.pixels)) = false)
      (fun acc2 f hP => processFileStep_keep dm maxT minT c d2.name acc2 f hP)
      d2.files (h htop) acc
  · unfold processDir2
    rw [if_neg htop]
    exact ⟨rfl, rfl⟩

theorem process_keep (T : OutputTree) (maxT : ℚ) (minT : Option ℚ)
    (dm : Bool)
    (h : ∀ d1 ∈ T, ∀ d2 ∈ d1.subdirs, pyLower d2.name = "top" →
      ∀ f ∈ d2.files, isPng f.name = true →
      (too_bright maxT (avgBrightness f.pixels)
        || too_dark minT (avgBrightness f.pixels)) = false) :
    (process_top_view_renders_with_sync T maxT minT dm).tree = T
      ∧ (process_top_view_renders_with_sync T maxT minT dm).deleted = 0 :=
  foldl_keep (processDir1 dm maxT minT)
    (fun d1 => ∀ d2 ∈ d1.subdirs, pyLower d2.name = "top" →
      ∀ f ∈ d2.files, isPng f.name = true →
      (too_bright maxT (avgBrightness f.pixels)
        || too_dark minT (avgBrightness f.pixels)) = false)
    (fun acc d1 hP =>
      foldl_keep (fun a x => processDir2 dm maxT minT d1.name a x)
        (fun d2 => pyLower d2.name = "top" → ∀ f ∈ d2.files,
          isPng f.name = true →
          (too_bright maxT (avgBrightness f.pixels)
            || too_dark minT (avgBrightness f.pixels)) = false)
        (fun acc2 d2 hP2 => processDir2_keep dm maxT minT d1.name acc2 d2 hP2)
        d1.subdirs hP acc)
    T h ⟨T, 0, 0⟩

theorem after_process_no_rejected (T : OutputTree) (maxT : ℚ)
    (minT : Option ℚ) (hnd : (T.map (fun d => d.name)).Nodup)
    (hnd2 : ∀ da ∈ T, (da.subdirs.map (fun d => d.name)).Nodup) :
    ∀ d1' ∈ (process_top_view_renders_with_sync T maxT minT false).tree,
      ∀ d2' ∈ d1'.subdirs, pyLower d2'.name = "top" →
      ∀ f ∈ d2'.files, isPng f.name = true →
      (too_bright maxT (avgBrightness f.pixels)
        || too_dark minT (avgBrightness f.pixels)) = false := by
  intro d1' hd1' d2' hd2' htop' f hf' hpng
  by_contra hne
  rw [Bool.not_eq_false] at hne
  have hle := process_tree_le T maxT minT false
  obtain ⟨d1, hd1, hle1⟩ := forall2_mem_left hle d1' hd1'
  obtain ⟨d2, hd2, hle2⟩ := forall2_mem_left hle1.2 d2' hd2'
  have htop : pyLower d2.name = "top" := by rw [← hle2.1]; exact htop'
  have habs := process_absent T maxT minT hnd hnd2 hd1 hd2 htop
    (hle2.2 f hf') hpng hne
  exact absurd rfl
    (habs d1' hd1' hle1.1 d2' hd2' (Or.inl hle2.1) f hf')

/-- C10: running `process_top_view_renders_with_sync` twice with identical
thresholds and `debug_mode=False` on the same output directory performs
zero additional deletions on the second pass: the second run leaves the
tree of the first run unchanged (every image kept by the first pass is
kept again and every image deleted by the first pass is absent). -/
theorem process_refilter_idempotent (T : OutputTree) (maxT : ℚ)
    (minT : Option ℚ) (hnd : (T.map (fun d => d.name)).Nodup)
    (hnd2 : ∀ da ∈ T, (da.subdirs.map (fun d => d.name)).Nodup) :
    (process_top_view_renders_with_sync
        (process_top_view_renders_with_sync T maxT minT false).tree
        maxT minT false).tree
      = (process_top_view_renders_with_sync T maxT minT false).tree
    ∧ (process_top_view_renders_with_sync
        (process_top_view_renders_with_sync T maxT minT false).tree
        maxT minT false).deleted = 0 :=
  process_keep (process_top_view_renders_with_sync T maxT minT false).tree
    maxT minT false (after_process_no_rejected T maxT minT hnd hnd2)

/-- C10 (witness): the idempotence theorem applied to a concrete tree with
one rejected and one kept image. -/
theorem process_refilter_idempotent_witness :
    (process_top_view_renders_with_sync
        (process_top_view_renders_with_sync
          [⟨"boxes", [⟨"top", [⟨"bad.png", [246]⟩, ⟨"ok.png", [200]⟩]⟩,
            ⟨"front_left", [⟨"bad.png", [10]⟩, ⟨"ok.png", [10]⟩]⟩]⟩]
          245 none false).tree 245 none false).tree
      = (process_top_view_renders_with_sync
          [⟨"boxes", [⟨"top", [⟨"bad.png", [246]⟩, ⟨"ok.png", [200]⟩]⟩,
            ⟨"front_left", [⟨"bad.png", [10]⟩, ⟨"ok.png", [10]⟩]⟩]⟩]
          245 none false).tree
    ∧ (process_top_view_renders_with_sync
        (process_top_view_renders_with_sync
          [⟨"boxes", [⟨"top", [⟨"bad.png", [246]⟩, ⟨"ok.png", [200]⟩]⟩,
            ⟨"front_left", [⟨"bad.png", [10]⟩, ⟨"ok.png", [10]⟩]⟩]⟩]
          245 none false).tree 245 none false).deleted = 0 :=
  process_refilter_idempotent
    [⟨"boxes", [⟨"top", [⟨"bad.png", [246]⟩, ⟨"ok.png", [200]⟩]⟩,
      ⟨"front_left", [⟨"bad.png", [10]⟩, ⟨"ok.png", [10]⟩]⟩]⟩]
    245 none (by decide) (by decide)

/-! ## C2: the writer's layout and the filter's layout disagree -/

theorem foldl_id_of {α : Type} (step : FilterResult → α → FilterResult)
    (P : α → Prop) (hstep : ∀ acc a, P a → step acc a = acc) :
    ∀ (l : List α), (∀ a ∈ l, P a) → ∀ acc, l.foldl step acc = acc := by
  intro l
  induction l with
  | nil => intro _ _; rfl
  | cons a rest ih =>
    intro hP acc
    rw [List.foldl_cons, hstep acc a (hP a (List.mem_cons_self a rest))]
    exact ih (fun x hx => hP x (List.mem_cons_of_mem a hx)) acc

theorem process_no_top (T : OutputTree) (maxT : ℚ) (minT : Option ℚ)
    (dm : Bool)
    (h : ∀ d1 ∈ T, ∀ d2 ∈ d1.subdirs, pyLower d2.name ≠ "top") :
    process_top_view_renders_with_sync T maxT minT dm = ⟨T, 0, 0⟩ :=
  foldl_id_of (processDir1 dm maxT minT)
    (fun d1 => ∀ d2 ∈ d1.subdirs, pyLower d2.name ≠ "top")
    (fun acc d1 hP =>
      foldl_id_of (fun a x => processDir2 dm maxT minT d1.name a x)
        (fun d2 => pyLower d2.name ≠ "top")
        (fun acc2 d2 hP2 => by
          show processDir2 dm maxT minT d1.name acc2 d2 = acc2
          unfold processDir2
          rw [if_neg hP2])
        d1.subdirs hP acc)
    T h ⟨T, 0, 0⟩

/-- C2 (amended): `render_model` writes the view-major layout
`OUTPUT/<view>/<category>/<model>_v<variation>.png`, while the traversal
of `process_top_view_renders_with_sync` classifies only images directly
inside a directory whose lowered base name is `"top"` and resolves
siblings as `output_folder/<parent-of-top>/<view>/<file>` — the
category-major layout.  On any tree written by `render_model` whose
categories are not named `top`, the only directory named `top` is the
top-level view directory, which contains no image files, so the filter
visits and classifies no image and performs no deletions: the two
components do not agree on one canonical layout. -/
theorem rendered_layout_not_traversed (categories : List String)
    (modelsOf : String → List String) (variationsPerModel : Nat)
    (pixelsOf : String → String → Nat → List ℚ) (maxT : ℚ)
    (minT : Option ℚ)
    (h : "top" ∉ categories.map pyLower) :
    process_top_view_renders_with_sync
        (renderedTree categories modelsOf variationsPerModel pixelsOf)
        maxT minT false
      = ⟨renderedTree categories modelsOf variationsPerModel pixelsOf,
          0, 0⟩ := by
  apply process_no_top
  intro d1 hd1 d2 hd2 htop
  simp only [renderedTree, List.mem_map] at hd1
  obtain ⟨view, _, hd1eq⟩ := hd1
  rw [← hd1eq] at hd2
  simp only [List.mem_map] at hd2
  obtain ⟨cat, hcat, hd2eq⟩ := hd2
  rw [← hd2eq] at htop
  exact h (htop ▸ List.mem_map_of_mem pyLower hcat)

/-- C2 (witness): a concrete one-category, one-model run of the amended
statement. -/
theorem rendered_layout_not_traversed_witness :
    process_top_view_renders_with_sync
        (renderedTree ["widgets"] (fun _ => ["m1"]) 1 (fun _ _ _ => [246]))
        245 none false
      = ⟨renderedTree ["widgets"] (fun _ => ["m1"]) 1 (fun _ _ _ => [246]),
          0, 0⟩ :=
  rendered_layout_not_traversed ["widgets"] (fun _ => ["m1"]) 1
    (fun _ _ _ => [246]) 245 none (by decide)

/-- C2 (counterexample): a tree written by `render_model` containing a
reference-view image whose brightness exceeds the upper threshold; the
filter's traversal neither classifies nor deletes anything (`deleted =
kept = 0`, tree unchanged), so it does not visit that image, contrary to
the claim that the two components agree on one canonical layout. -/
theorem rendered_layout_counterexample :
    process_top_view_renders_with_sync
        (renderedTree ["widgets"] (fun _ => ["m1"]) 1 (fun _ _ _ => [246]))
        245 none false
      = ⟨renderedTree ["widgets"] (fun _ => ["m1"]) 1 (fun _ _ _ => [246]),
          0, 0⟩
    ∧ ((renderedTree ["widgets"] (fun _ => ["m1"]) 1
        (fun _ _ _ => [246])).getD 4 ⟨"", []⟩).name = "top"
    ∧ (((renderedTree ["widgets"] (fun _ => ["m1"]) 1
        (fun _ _ _ => [246])).getD 4 ⟨"", []⟩).subdirs.getD 0
          ⟨"", []⟩).files = [⟨"m1_v1.png", [246]⟩]
    ∧ isPng "m1_v1.png" = true
    ∧ too_bright 245 (avgBrightness [246]) = true := by
  refine ⟨process_no_top _ 245 none false (by decide), by decide, by decide,
    by decide, ?_⟩
  norm_num [too_bright, avgBrightness]

/-! ## C5: threshold calibration and the classification rule -/

theorem rejection_iff (maxT : ℚ) (minT : Option ℚ) (avg : ℚ) :
    (too_bright maxT avg || too_dark minT avg) = true
      ↔ (maxT < avg ∨ ∃ m, minT = some m ∧ avg < m) := by
  cases minT with
  | none => simp [too_bright, too_dark]
  | some m =>
    simp only [too_bright, too_dark, Bool.or_eq_true, decide_eq_true_eq,
      Option.some.injEq]
    constructor
    · rintro (h | h)
      · exact Or.inl h
      · exact Or.inr ⟨m, rfl, h⟩
    · rintro (h | ⟨m', hm', h⟩)
      · exact Or.inl h
      · exact Or.inr (hm' ▸ h)

/-- C5: `compute_thresholds_from_references` returns upper threshold =
mean brightness of the empty reference minus the margin and lower
threshold = mean brightness of the object reference plus the margin; a
reference-view image is deleted by `process_top_view_renders_with_sync`
exactly when its mean grayscale brightness is strictly above the upper
threshold or a lower threshold is configured and the value is strictly
below it, and kept otherwise; in particular empty mean 250, object mean
180, margin 5 yield thresholds (245, 185), an image of brightness 246 is
deleted as too bright and one of brightness 200 is kept. -/
theorem thresholds_and_classification :
    (∀ (emptyRef objectRef : List ℚ) (margin : ℚ),
      compute_thresholds_from_references emptyRef objectRef margin
        = (avgBrightness emptyRef - margin, avgBrightness objectRef + margin))
    ∧ (∀ (maxT : ℚ) (minT : Option ℚ) (px : List ℚ),
        ((process_top_view_renders_with_sync
            [⟨"c", [⟨"top", [⟨"img.png", px⟩]⟩]⟩] maxT minT false).deleted = 1
          ↔ (maxT < avgBrightness px
              ∨ ∃ m, minT = some m ∧ avgBrightness px < m))
        ∧ ((process_top_view_renders_with_sync
            [⟨"c", [⟨"top", [⟨"img.png", px⟩]⟩]⟩] maxT minT false).kept = 1
          ↔ ¬(maxT < avgBrightness px
              ∨ ∃ m, minT = some m ∧ avgBrightness px < m)))
    ∧ compute_thresholds_from_references [250] [180] 5 = (245, 185)
    ∧ process_top_view_renders_with_sync
        [⟨"c", [⟨"top", [⟨"a.png", [246]⟩, ⟨"b.png", [200]⟩]⟩]⟩]
        245 (some 185) false
      = ⟨[⟨"c", [⟨"top", [⟨"b.png", [200]⟩]⟩]⟩], 1, 1⟩ := by
  have htopn : pyLower "top" = "top" := by decide
  have hpng : isPng "img.png" = true := by decide
  refine ⟨fun _ _ _ => rfl, ?_, ?_, ?_⟩
  · intro maxT minT px
    by_cases hb : (too_bright maxT (avgBrightness px)
        || too_dark minT (avgBrightness px)) = true
    · constructor
      · simp only [process_top_view_renders_with_sync, List.foldl_cons,
          List.foldl_nil, processDir1, processDir2, processFileStep, htopn,
          if_true, hpng, hb]
        simp [(rejection_iff maxT minT (avgBrightness px)).mp hb]
      · simp only [process_top_view_renders_with_sync, List.foldl_cons,
          List.foldl_nil, processDir1, processDir2, processFileStep, htopn,
          if_true, hpng, hb]
        simp [(rejection_iff maxT minT (avgBrightness px)).mp hb]
    · rw [Bool.not_eq_true] at hb
      constructor
      · simp only [process_top_view_renders_with_sync, List.foldl_cons,
          List.foldl_nil, processDir1, processDir2, processFileStep, htopn,
          if_true, hpng, hb]
        have := (rejection_iff maxT minT (avgBrightness px)).not
        rw [hb] at this
        simp [this.mp (by simp)]
      · simp only [process_top_view_renders_with_sync, List.foldl_cons,
          List.foldl_nil, processDir1, processDir2, processFileStep, htopn,
          if_true, hpng, hb]
        have := (rejection_iff maxT minT (avgBrightness px)).not
        rw [hb] at this
        simp [this.mp (by simp)]
  · norm_num [compute_thresholds_from_references, avgBrightness]
  · have hrejA : (too_bright 245 (avgBrightness [246])
        || too_dark (some 185) (avgBrightness [246])) = true := by
      norm_num [too_bright, too_dark, avgBrightness]
    have hkeepB : (too_bright 245 (avgBrightness [200])
        || too_dark (some 185) (avgBrightness [200])) = false := by
      norm_num [too_bright, too_dark, avgBrightness]
    have hpngA : isPng "a.png" = true := by decide
    have hpngB : isPng "b.png" = true := by decide
    simp only [process_top_view_renders_with_sync, List.foldl_cons,
      List.foldl_nil, processDir1, processDir2, processFileStep, htopn,
      if_true, hpngA, hpngB, hrejA, hkeepB]
    decide

end BDG

